import Mathlib

/-!
Verification development for the account-data export pipeline of this
repository (Telegram Desktop fork, `Telegram/SourceFiles/export/`).

The C++ sources are shallowly embedded:
  * `QString` / `Utf8String` / `QByteArray` values are modelled as `List Char`
    (`Str` below); byte payloads of file chunks as `List Nat`.
  * machine integers are modelled as `Nat` / `Int`, with explicit `% 2 ^ 32`
    (resp. `% 2 ^ 64`) wherever the C++ performs a narrowing/unsigned cast.
  * `std::map` members are modelled as functions into `Option`,
    `std::deque` as `List` (front of the deque = head of the list).
  * fallible operations (code guarded by `Expects`/`Assert`, which abort the
    process when violated) return `Option`, `none` being the aborted run.
  * external collaborators that are not part of this repository's export core
    (calendar formatting, the MIME database, `Output::File`'s on-disk path
    preparation) enter as explicit function parameters.
-/

/-- Strings of the embedded program (`QString`, `Utf8String`, `QByteArray`
seen as text) are modelled as lists of characters. -/
abbrev Str := List Char

namespace Export

/-! ## Peer identifiers (`export_data_types.cpp`, lines 24-45) -/

namespace Data

/-- C++ `constexpr auto kUserPeerIdShift = (1ULL << 32)`. -/
def kUserPeerIdShift : Nat := 1 <<< 32

/-- C++ `constexpr auto kChatPeerIdShift = (2ULL << 32)`. -/
def kChatPeerIdShift : Nat := 2 <<< 32

/-- The C++ cast `uint32(x)` applied to a signed 32-bit value: reduction
modulo `2 ^ 32`, landing in `[0, 2 ^ 32)`. -/
def toUInt32bits (x : Int) : Nat := (x % (2 ^ 32 : Int)).toNat

/-- The C++ cast `int32(n)` applied to an unsigned 64-bit value: take the low
32 bits and re-interpret them as a signed two's-complement value. -/
def toInt32bits (n : Nat) : Int :=
  let r : Nat := n % 2 ^ 32
  if r < 2 ^ 31 then (r : Int) else (r : Int) - 2 ^ 32

/-- `PeerId UserPeerId(int32 userId)`: `kUserPeerIdShift | uint32(userId)`. -/
def UserPeerId (userId : Int) : Nat := kUserPeerIdShift ||| toUInt32bits userId

/-- `PeerId ChatPeerId(int32 chatId)`: `kChatPeerIdShift | uint32(chatId)`. -/
def ChatPeerId (chatId : Int) : Nat := kChatPeerIdShift ||| toUInt32bits chatId

/-- `int32 BarePeerId(PeerId peerId)`: `int32(peerId & 0xFFFFFFFFULL)`. -/
def BarePeerId (peerId : Nat) : Int := toInt32bits (peerId &&& 0xFFFFFFFF)

end Data

/-! ## Decimal formatting (`FillLeft`, `NumberToString`) and dialog paths -/

namespace Data

/-- `Utf8String FillLeft(const Utf8String &data, int length, char filler)`
(`export_data_types.cpp`, lines 61-72): left-pad `data` with `filler` up to
`length` characters; return `data` unchanged when already long enough. -/
def FillLeft (data : Str) (length : Nat) (filler : Char) : Str :=
  if length ≤ data.length then data
  else List.replicate (length - data.length) filler ++ data

/-- Modelled from the spec: `NumberToString` lives in the (absent) header
`export_data_types.h` and converts its argument with `std::to_string`; this
is the usual base-10 representation, most significant digit first. -/
def decimalDigits (n : Nat) : List Char :=
  if _h : n < 10 then [Nat.digitChar n]
  else decimalDigits (n / 10) ++ [Nat.digitChar (n % 10)]
decreasing_by exact Nat.div_lt_self (by omega) (by omega)

/-- Modelled from the spec: `NumberToString(value, length, filler)` from the
(absent) header `export_data_types.h` renders `value` in decimal and pads it
on the left with `filler` to at least `length` characters via `FillLeft`. -/
def NumberToString (value : Nat) (length : Nat) (filler : Char) : Str :=
  FillLeft (decimalDigits value) length filler

/-- Specification-side reading of a digit string: the number it denotes
(ignoring leading zeros), used to state what `fillDialogsPaths` numbers. -/
def decimalValue (s : List Char) : Nat :=
  s.foldl (fun a c => a * 10 + (c.toNat - 48)) 0

/-- Classification of a dialog, `Data::DialogInfo::Type`. The enum lives in
the absent header; its constructors are those used by
`export_api_wrap.cpp` / `export_data_types.cpp`. -/
inductive DialogType where
  | Unknown
  | Personal
  | Bot
  | PrivateGroup
  | PublicGroup
  | PrivateChannel
  | PublicChannel
  | Channel
deriving DecidableEq, Repr

/-- `Data::DialogInfo` (fields as used by the sources: classification,
display name, top-message cursor data and the assigned folder path). -/
structure DialogInfo where
  type : DialogType := .Unknown
  name : Str := []
  topMessageId : Int := 0
  topMessageDate : Int := 0
  relativePath : Str := []
deriving DecidableEq, Repr

end Data

namespace ApiWrap

/-- Body of the loop of `ApiWrap::fillDialogsPaths` (lines 510-514): dialog
number `index + 1`, zero-padded to `digits` characters, spliced into
`"Chats/chat_" + number + '/'`. -/
def fillPathsFrom (digits : Nat) (index : Nat) :
    List Data.DialogInfo → List Data.DialogInfo
  | [] => []
  | dialog :: rest =>
    let number := Data.NumberToString (index + 1) digits '0'
    { dialog with relativePath := "Chats/chat_".data ++ number ++ ['/'] } ::
      fillPathsFrom digits (index + 1) rest

/-- `void ApiWrap::fillDialogsPaths()` (lines 505-515). `digits` is computed
from `list.size() - 1`; `size()` is a `size_t`, so the subtraction is
performed modulo `2 ^ 64` (it wraps around for an empty list). -/
def fillDialogsPaths (list : List Data.DialogInfo) : List Data.DialogInfo :=
  let digits :=
    (Data.NumberToString ((list.length + (2 ^ 64 - 1)) % 2 ^ 64) 0 '0').length
  fillPathsFrom digits 0 list

end ApiWrap

/-! ## File locations and the loaded-file cache (`export_api_wrap.cpp`) -/

namespace Data

/-- The C++ cast to `uint64` applied to a (possibly signed) value. -/
def toUInt64bits (x : Int) : Nat := (x % (2 ^ 64 : Int)).toNat

/-- Wire union `MTPInputFileLocation`: the four location variants the export
core handles, each with the fields `ComputeLocationKey` / `ParseLocation` /
`ParseDocument` read. -/
inductive InputFileLocation where
  | inputFileLocation (volumeId : Int) (localId : Int) (secret : Int)
  | inputDocumentFileLocation (id : Int) (accessHash : Int) (version : Int)
  | inputSecureFileLocation (id : Int) (accessHash : Int)
  | inputEncryptedFileLocation (id : Int) (accessHash : Int)
deriving DecidableEq, Repr

/-- `Data::FileLocation`: a DC id plus an `MTPInputFileLocation`. -/
structure FileLocation where
  dcId : Int := 0
  data : InputFileLocation :=
    .inputFileLocation 0 0 0
deriving DecidableEq, Repr

end Data

namespace ApiWrap

/-- `struct LocationKey` (`export_api_wrap.cpp`, lines 31-38): two `uint64`
fields, ordered/compared componentwise. -/
structure LocationKey where
  type : Nat
  id : Nat
deriving DecidableEq, Repr

/-- `LocationKey ComputeLocationKey(const Data::FileLocation &value)`
(lines 46-64): start from `type = dcId`, OR in a variant tag shifted by 24
(and, for plain file locations, the low 32 bits of `local_id` shifted by
32), and store the variant's numeric id in `id`. -/
def ComputeLocationKey (value : Data.FileLocation) : LocationKey :=
  let base := Data.toUInt64bits value.dcId
  match value.data with
  | .inputFileLocation volumeId localId _secret =>
    { type := base ||| (1 <<< 24) ||| (Data.toUInt32bits localId <<< 32)
      id := Data.toUInt64bits volumeId }
  | .inputDocumentFileLocation id _accessHash _version =>
    { type := base ||| (2 <<< 24), id := Data.toUInt64bits id }
  | .inputSecureFileLocation id _accessHash =>
    { type := base ||| (3 <<< 24), id := Data.toUInt64bits id }
  | .inputEncryptedFileLocation id _accessHash =>
    { type := base ||| (4 <<< 24), id := Data.toUInt64bits id }

/-- `class ApiWrap::LoadedFileCache` (lines 68-82): a bounded map from
location keys to relative paths plus the eviction deque `_list` (head =
front of the deque).  The `std::map` member is modelled as a function into
`Option Str`. -/
structure LoadedFileCache where
  limit : Nat
  map : LocationKey → Option Str
  list : List LocationKey

/-- `LoadedFileCache(int limit)` on an empty cache (lines 146-148). -/
def initCache (limit : Nat) : LoadedFileCache :=
  { limit := limit, map := fun _ => none, list := [] }

/-- `void LoadedFileCache::save(location, relativePath)` (lines 150-161):
insert-or-assign the mapping, push the key at the back of the deque, and if
the deque now exceeds the limit, pop its front key and erase that key from
the map. -/
def LoadedFileCache.save (c : LoadedFileCache) (location : Data.FileLocation)
    (relativePath : Str) : LoadedFileCache :=
  let key := ComputeLocationKey location
  let map := fun k => if k = key then some relativePath else c.map k
  let list := c.list ++ [key]
  if list.length > c.limit then
    let front := list.headD key
    { c with map := fun k => if k = front then none else map k
             list := list.tail }
  else
    { c with map := map, list := list }

/-- `base::optional<QString> LoadedFileCache::find(location) const`
(lines 163-170): look the computed key up in the map. -/
def LoadedFileCache.find (c : LoadedFileCache)
    (location : Data.FileLocation) : Option Str :=
  c.map (ComputeLocationKey location)

/-- Repeated `save` calls, one per (location, path) pair, front first. -/
def LoadedFileCache.saveAll (c : LoadedFileCache)
    (pairs : List (Data.FileLocation × Str)) : LoadedFileCache :=
  pairs.foldl (fun acc p => acc.save p.1 p.2) c

end ApiWrap

/-! ## The normalized record model (`export_data_types.h`, fields as used by
`export_data_types.cpp` and the spec's data-model section) -/

namespace Data

/-- A `double` value carried through the parsers unmodified; modelled as its
IEEE-754 bit pattern, since the export core never computes on it. -/
abbrev DoubleBits := Nat

/-- `PeerId` is a 64-bit unsigned value. -/
abbrev PeerId := Nat

/-- Skip reasons of `Data::File` (header absent; the constructors are those
assigned by `ApiWrap::processFileLoad`). -/
inductive SkipReason where
  | Unavailable
  | FileType
  | FileSize
deriving DecidableEq, Repr

/-- `Data::File`: size, optional inline content, location, suggested and
resolved paths, and an optional skip reason (spec section 3). -/
structure File where
  relativePath : Str := []
  suggestedPath : Str := []
  size : Int := 0
  content : Str := []
  location : FileLocation := {}
  skipReason : Option SkipReason := none
deriving DecidableEq, Repr

/-- `Data::Image`: dimensions plus the backing file. -/
structure Image where
  width : Int := 0
  height : Int := 0
  file : File := {}
deriving DecidableEq, Repr

/-- `Data::Photo`. -/
structure Photo where
  id : Int := 0
  date : Int := 0
  image : Image := {}
deriving DecidableEq, Repr

/-- `Data::Document` (fields filled by `ParseDocument`/`ParseAttributes`;
`isSticker` is read by `ApiWrap::processFileLoad` but never set by
`ParseAttributes` in this snapshot, so it keeps its `false` default). -/
structure Document where
  id : Int := 0
  date : Int := 0
  file : File := {}
  mime : Str := []
  width : Int := 0
  height : Int := 0
  duration : Int := 0
  stickerEmoji : Str := []
  songPerformer : Str := []
  songTitle : Str := []
  name : Str := []
  isSticker : Bool := false
  isAnimated : Bool := false
  isVideoMessage : Bool := false
  isVideoFile : Bool := false
  isVoiceMessage : Bool := false
  isAudioFile : Bool := false
deriving DecidableEq, Repr

/-- `Data::GeoPoint`. -/
structure GeoPoint where
  latitude : DoubleBits := 0
  longitude : DoubleBits := 0
  valid : Bool := false
deriving DecidableEq, Repr

/-- `Data::ContactInfo`. -/
structure ContactInfo where
  userId : Int := 0
  firstName : Str := []
  lastName : Str := []
  phoneNumber : Str := []
deriving DecidableEq, Repr

/-- `MTPInputUser` as built by `ParseUser` (`MTP_inputUser(id, hash)`). -/
structure InputUser where
  userId : Int := 0
  accessHash : Int := 0
deriving DecidableEq, Repr

/-- `MTPInputPeer` as built by `ParseChat` / `Peer::input`. -/
inductive InputPeer where
  | inputPeerEmpty
  | inputPeerUser (userId : Int) (accessHash : Int)
  | inputPeerChat (chatId : Int)
  | inputPeerChannel (channelId : Int) (accessHash : Int)
deriving DecidableEq, Repr

/-- `Data::User`. -/
structure User where
  info : ContactInfo := {}
  username : Str := []
  isBot : Bool := false
  input : InputUser := {}
deriving DecidableEq, Repr

/-- `Data::Chat`. -/
structure Chat where
  id : Int := 0
  title : Str := []
  username : Str := []
  broadcast : Bool := false
  input : InputPeer := .inputPeerEmpty
deriving DecidableEq, Repr

/-- `Data::Peer`: tagged union of a user and a chat. -/
inductive Peer where
  | user (data : User)
  | chat (data : Chat)
deriving DecidableEq, Repr

/-- `Data::Venue`. -/
structure Venue where
  point : GeoPoint := {}
  title : Str := []
  address : Str := []
deriving DecidableEq, Repr

/-- `Data::Game`. -/
structure Game where
  id : Int := 0
  title : Str := []
  shortName : Str := []
  description : Str := []
  botId : Int := 0
deriving DecidableEq, Repr

/-- `Data::Invoice`. -/
structure Invoice where
  title : Str := []
  description : Str := []
  currency : Str := []
  amount : Int := 0
  receiptMsgId : Int := 0
deriving DecidableEq, Repr

/-- The variant alternatives of `Data::Media::content`
(`base::optional_variant`, empty by default). -/
inductive MediaContent where
  | empty
  | photo (data : Photo)
  | document (data : Document)
  | geoPoint (data : GeoPoint)
  | contact (data : ContactInfo)
  | venue (data : Venue)
  | game (data : Game)
  | invoice (data : Invoice)
  | unsupported
deriving DecidableEq, Repr

/-- `Data::Media`. -/
structure Media where
  content : MediaContent := .empty
  ttl : Int := 0
deriving DecidableEq, Repr

/-- Discard reasons of `Data::ActionPhoneCall` as parsed from the wire. -/
inductive CallDiscardReason where
  | Missed
  | Disconnect
  | Hangup
  | Busy
deriving DecidableEq, Repr

/-- Secure-value types of `Data::ActionSecureValuesSent`. -/
inductive SecureValueKind where
  | PersonalDetails
  | Passport
  | DriverLicense
  | IdentityCard
  | InternalPassport
  | Address
  | UtilityBill
  | BankStatement
  | RentalAgreement
  | PassportRegistration
  | TemporaryRegistration
  | Phone
  | Email
deriving DecidableEq, Repr

/-- The variant alternatives of `Data::ServiceAction::content` (empty by
default; the 18 populated variants of spec section 3). -/
inductive ActionContent where
  | empty
  | chatCreate (title : Str) (userIds : List Int)
  | chatEditTitle (title : Str)
  | chatEditPhoto (photo : Photo)
  | chatDeletePhoto
  | chatAddUser (userIds : List Int)
  | chatDeleteUser (userId : Int)
  | chatJoinedByLink (inviterId : Int)
  | channelCreate (title : Str)
  | chatMigrateTo (channelId : Int)
  | channelMigrateFrom (title : Str) (chatId : Int)
  | pinMessage
  | historyClear
  | gameScore (gameId : Int) (score : Int)
  | paymentSent (currency : Str) (amount : Int)
  | phoneCall (duration : Int) (discardReason : Option CallDiscardReason)
  | screenshotTaken
  | customAction (message : Str)
  | botAllowed (domain : Str)
  | secureValuesSent (types : List SecureValueKind)
deriving DecidableEq, Repr

/-- `Data::ServiceAction`. -/
structure ServiceAction where
  content : ActionContent := .empty
deriving DecidableEq, Repr

/-- `Data::Message`. -/
structure Message where
  id : Int := 0
  date : Int := 0
  edited : Int := 0
  fromId : Int := 0
  forwardedFromId : PeerId := 0
  replyToMsgId : Int := 0
  viaBotId : Int := 0
  signature : Str := []
  text : Str := []
  media : Media := {}
  action : ServiceAction := {}
deriving DecidableEq, Repr

/-- `Data::UserpicsSlice`. -/
structure UserpicsSlice where
  list : List Photo := []
deriving DecidableEq, Repr

/-- `Data::MessagesSlice`: the batch plus the embedded peer dictionary
(`std::map<PeerId, Peer>`, modelled as a function into `Option`). -/
structure MessagesSlice where
  list : List Message := []
  peers : PeerId → Option Peer := fun _ => none

end Data

/-! ## Settings (`export_settings.h` is absent from the sources; modelled
from the spec: a bitmask of content types, a per-type full-chat bitmask, a
media-type bitmask with a size limit, and the destination path) -/

/-! Modelled from the spec: the media-type bits of `MediaSettings::Type`
(`export_settings.h` is absent); seven distinct flag bits. -/
namespace MediaSettingsType

def Photo : Nat := 0x01

def Video : Nat := 0x02

def VoiceMessage : Nat := 0x04

def VideoMessage : Nat := 0x08

def Sticker : Nat := 0x10

def GIF : Nat := 0x20

def File : Nat := 0x40

end MediaSettingsType

/-- Modelled from the spec: `MediaSettings` — media-type bitmask plus size
limit (`export_settings.h` is absent). -/
structure MediaSettings where
  types : Nat := 0
  sizeLimit : Int := 0
deriving DecidableEq, Repr

/-- Modelled from the spec: `Export::Settings` — destination path, bitmask
of dialog types, per-type full-chat bitmask and the media settings
(`export_settings.h` is absent). -/
structure Settings where
  path : Str := []
  types : Nat := 0
  fullChats : Nat := 0
  media : MediaSettings := {}
deriving DecidableEq, Repr

/-! ## Wire records (the `MTP...` types, with the fields the parsers read;
optional wire fields appear as `Option`, matching the `has_...()` tests) -/

namespace Data

/-- Wire `MTPFileLocation`. -/
inductive MTPFileLocation where
  | fileLocation (dcId : Int) (volumeId : Int) (localId : Int) (secret : Int)
  | fileLocationUnavailable (volumeId : Int) (localId : Int) (secret : Int)
deriving DecidableEq, Repr

/-- Wire `MTPPhotoSize`. -/
inductive MTPPhotoSize where
  | photoSizeEmpty (type : Str)
  | photoSize (type : Str) (location : MTPFileLocation)
      (w : Int) (h : Int) (size : Int)
  | photoCachedSize (type : Str) (location : MTPFileLocation)
      (w : Int) (h : Int) (bytes : Str)
deriving DecidableEq, Repr

/-- Wire `MTPPhoto`. -/
inductive MTPPhoto where
  | photo (id : Int) (accessHash : Int) (date : Int)
      (sizes : List MTPPhotoSize)
  | photoEmpty (id : Int)
deriving DecidableEq, Repr

/-- Wire `MTPDocumentAttribute`. -/
inductive MTPDocumentAttribute where
  | imageSize (w : Int) (h : Int)
  | animated
  | sticker (alt : Str)
  | video (roundMessage : Bool) (w : Int) (h : Int) (duration : Int)
  | audio (voice : Bool) (duration : Int) (performer : Str) (title : Str)
  | filename (fileName : Str)
  | hasStickers
deriving DecidableEq, Repr

/-- Wire `MTPDocument`. -/
inductive MTPDocument where
  | document (id : Int) (accessHash : Int) (version : Int) (date : Int)
      (mimeType : Str) (size : Int) (dcId : Int)
      (attributes : List MTPDocumentAttribute)
  | documentEmpty (id : Int)
deriving DecidableEq, Repr

/-- Wire `MTPGeoPoint`. -/
inductive MTPGeoPoint where
  | geoPoint (long : DoubleBits) (lat : DoubleBits)
  | geoPointEmpty
deriving DecidableEq, Repr

/-- Wire `MTPPeer`. -/
inductive MTPPeer where
  | peerUser (userId : Int)
  | peerChat (chatId : Int)
  | peerChannel (channelId : Int)
deriving DecidableEq, Repr

/-- Wire `MTPUser`. -/
inductive MTPUser where
  | user (id : Int) (firstName : Option Str) (lastName : Option Str)
      (phone : Option Str) (username : Option Str) (accessHash : Option Int)
      (botInfoVersion : Option Int)
  | userEmpty (id : Int)
deriving DecidableEq, Repr

/-- Wire `MTPChat`. -/
inductive MTPChat where
  | chat (id : Int) (title : Str)
  | chatEmpty (id : Int)
  | chatForbidden (id : Int) (title : Str)
  | channel (id : Int) (accessHash : Int) (title : Str)
      (username : Option Str) (broadcast : Bool)
  | channelForbidden (id : Int) (accessHash : Int) (title : Str)
      (broadcast : Bool)
deriving DecidableEq, Repr

/-- Wire `MTPGame`. -/
inductive MTPGame where
  | game (id : Int) (title : Str) (shortName : Str) (description : Str)
deriving DecidableEq, Repr

/-- Wire `MTPMessageMedia`. -/
inductive MTPMessageMedia where
  | messageMediaEmpty
  | messageMediaPhoto (photo : Option MTPPhoto) (ttlSeconds : Option Int)
  | messageMediaGeo (geo : MTPGeoPoint)
  | messageMediaContact (phoneNumber : Str) (firstName : Str)
      (lastName : Str) (userId : Int)
  | messageMediaUnsupported
  | messageMediaDocument (document : Option MTPDocument)
      (ttlSeconds : Option Int)
  | messageMediaWebPage
  | messageMediaVenue (geo : MTPGeoPoint) (title : Str) (address : Str)
  | messageMediaGame (game : MTPGame)
  | messageMediaInvoice (title : Str) (description : Str)
      (currency : Str) (totalAmount : Int) (receiptMsgId : Option Int)
  | messageMediaGeoLive (geo : MTPGeoPoint) (period : Int)
deriving DecidableEq, Repr

/-- Wire `MTPPhoneCallDiscardReason`. -/
inductive MTPPhoneCallDiscardReason where
  | missed
  | disconnect
  | hangup
  | busy
deriving DecidableEq, Repr

/-- Wire `MTPSecureValueType`. -/
inductive MTPSecureValueType where
  | personalDetails
  | passport
  | driverLicense
  | identityCard
  | internalPassport
  | address
  | utilityBill
  | bankStatement
  | rentalAgreement
  | passportRegistration
  | temporaryRegistration
  | phone
  | email
deriving DecidableEq, Repr

/-- Wire `MTPMessageAction`. -/
inductive MTPMessageAction where
  | chatCreate (title : Str) (users : List Int)
  | chatEditTitle (title : Str)
  | chatEditPhoto (photo : MTPPhoto)
  | chatDeletePhoto
  | chatAddUser (users : List Int)
  | chatDeleteUser (userId : Int)
  | chatJoinedByLink (inviterId : Int)
  | channelCreate (title : Str)
  | chatMigrateTo (channelId : Int)
  | channelMigrateFrom (title : Str) (chatId : Int)
  | pinMessage
  | historyClear
  | gameScore (gameId : Int) (score : Int)
  | paymentSentMe
  | paymentSent (currency : Str) (totalAmount : Int)
  | phoneCall (duration : Option Int)
      (reason : Option MTPPhoneCallDiscardReason)
  | screenshotTaken
  | customAction (message : Str)
  | botAllowed (domain : Str)
  | secureValuesSentMe
  | secureValuesSent (types : List MTPSecureValueType)
  | actionEmpty
deriving DecidableEq, Repr

/-- Wire `MTPDmessageFwdHeader` (fields read by `ParseMessage`). -/
structure MessageFwdHeader where
  fromId : Option Int := none
  channelId : Option Int := none
  savedFromPeer : Option MTPPeer := none
deriving DecidableEq, Repr

/-- Wire `MTPMessage`. -/
inductive MTPMessage where
  | message (id : Int) (fromId : Option Int) (fwdFrom : Option MessageFwdHeader)
      (viaBotId : Option Int) (replyToMsgId : Option Int) (date : Int)
      (text : Str) (media : Option MTPMessageMedia) (editDate : Option Int)
      (postAuthor : Option Str)
  | messageService (id : Int) (fromId : Option Int) (date : Int)
      (action : MTPMessageAction) (replyToMsgId : Option Int)
  | messageEmpty (id : Int)
deriving DecidableEq, Repr

end Data

/-! ## Parsers (`export_data_types.cpp`) -/

/-- Build platform of the client; selects which `#ifdef Q_OS_...` branch of
`CleanDocumentName` is compiled. -/
inductive Platform where
  | win
  | mac
  | linux
deriving DecidableEq, Repr

namespace Data

/-- `QString::toLower` (the sources only rely on it for ASCII mime strings
and extensions, which `Char.toLower` covers). -/
def lowerStr (s : Str) : Str := s.map Char.toLower

/-- `QString::trimmed`: strip leading and trailing whitespace. -/
def trimStr (s : Str) : Str :=
  ((s.dropWhile Char.isWhitespace).reverse.dropWhile Char.isWhitespace).reverse

/-- `QString::endsWith`. -/
def strEndsWith (l s : Str) : Bool :=
  decide (s.length ≤ l.length) && decide (l.drop (l.length - s.length) = s)

/-- `QString::replace('*', QString())`: drop every `'*'`. -/
def removeStar (s : Str) : Str := s.filter (fun c => c ≠ '*')

/-- `QString PreparePhotoFileName(TimeId date)` (lines 29-33).  `fdt` is
`FormatDateTime(date, '_', '_', '_')`: calendar formatting delegated to
`QDateTime`, an external collaborator, hence a parameter. -/
def PreparePhotoFileName (fdt : Int → Str) (date : Int) : Str :=
  "Photo_".data ++ fdt date ++ ".jpg".data

/-- `PeerId ParsePeerId(const MTPPeer &data)` (lines 47-55). -/
def ParsePeerId : MTPPeer → PeerId
  | .peerUser userId => UserPeerId userId
  | .peerChat chatId => ChatPeerId chatId
  | .peerChannel channelId => ChatPeerId channelId

/-- `FileLocation ParseLocation(const MTPFileLocation &data)` (lines 74-92):
an unavailable location is parsed with `dcId = 0`. -/
def ParseLocation : MTPFileLocation → FileLocation
  | .fileLocation dcId volumeId localId secret =>
    { dcId := dcId, data := .inputFileLocation volumeId localId secret }
  | .fileLocationUnavailable volumeId localId secret =>
    { dcId := 0, data := .inputFileLocation volumeId localId secret }

/-- `Image ParseMaxImage(sizes, suggestedPath)` (lines 94-121): keep the
size of strictly largest area `w * int64(h)` seen so far; a cached size also
carries its inline bytes. -/
def ParseMaxImage (sizes : List MTPPhotoSize) (suggestedPath : Str) : Image :=
  let init : Image := { file := { suggestedPath := suggestedPath } }
  (sizes.foldl
    (fun (acc : Image × Int) size =>
      match size with
      | .photoSizeEmpty _ => acc
      | .photoSize _ location w h sz =>
        let area := w * h
        if area > acc.2 then
          ({ width := w, height := h
             file := { acc.1.file with
                       location := ParseLocation location
                       content := []
                       size := sz } }, area)
        else acc
      | .photoCachedSize _ location w h bytes =>
        let area := w * h
        if area > acc.2 then
          ({ width := w, height := h
             file := { acc.1.file with
                       location := ParseLocation location
                       content := bytes
                       size := bytes.length } }, area)
        else acc)
    (init, 0)).1

/-- `Photo ParsePhoto(data, suggestedPath)` (lines 123-133). -/
def ParsePhoto (data : MTPPhoto) (suggestedPath : Str) : Photo :=
  match data with
  | .photo id _accessHash date sizes =>
    { id := id, date := date, image := ParseMaxImage sizes suggestedPath }
  | .photoEmpty id => { id := id }

/-- `void ParseAttributes(result, attributes)` (lines 135-169), folded over
the attribute list. -/
def ParseAttributes (result : Document)
    (attributes : List MTPDocumentAttribute) : Document :=
  attributes.foldl
    (fun result value =>
      match value with
      | .imageSize w h => { result with width := w, height := h }
      | .animated => { result with isAnimated := true }
      | .sticker alt => { result with stickerEmoji := alt }
      | .video roundMessage w h duration =>
        let result := if roundMessage
          then { result with isVideoMessage := true }
          else { result with isVideoFile := true }
        { result with width := w, height := h, duration := duration }
      | .audio voice duration performer title =>
        let result := if voice
          then { result with isVoiceMessage := true }
          else { result with isAudioFile := true }
        { result with
          songPerformer := performer, songTitle := title, duration := duration }
      | .filename fileName => { result with name := fileName }
      | .hasStickers => result)
    result

/-- `QString ComputeDocumentName(data, date)` (lines 171-202).  `mimeGlobs`
stands for the external MIME database (`Core::MimeTypeForName(...)
.globPatterns()`); `fdt` for `FormatDateTime(date, '_', '_', '_')`. -/
def ComputeDocumentName (fdt : Int → Str) (mimeGlobs : Str → List Str)
    (data : Document) (date : Int) : Str :=
  if data.name ≠ [] then data.name
  else
    let mimeString := data.mime
    let patterns := mimeGlobs mimeString
    let pattern := patterns.headD []
    if data.isVoiceMessage then
      let isMP3 := lowerStr mimeString = lowerStr "audio/mp3".data
      let ext := if isMP3 then ".mp3".data else ".ogg".data
      "Audio_".data ++ fdt date ++ ext
    else if data.isVideoFile then
      let ext := if pattern = [] then ".mov".data else removeStar pattern
      "Video_".data ++ fdt date ++ ext
    else
      let ext := if pattern = [] then ".unknown".data else removeStar pattern
      "File_".data ++ fdt date ++ ext

/-- The LTR/RTL mark/embedding/override/isolate characters stripped by
`CleanDocumentName` on every platform (lines 208-216). -/
def bidiControlChars : List Char :=
  [Char.ofNat 0x200E, Char.ofNat 0x200F,
   Char.ofNat 0x202A, Char.ofNat 0x202B,
   Char.ofNat 0x202D, Char.ofNat 0x202E,
   Char.ofNat 0x2066, Char.ofNat 0x2067]

/-- The additional per-platform reserved characters of the `controls` array
(lines 217-231). -/
def platformPathControls : Platform → List Char
  | .win => ['\\', '/', ':', '*', '?', '"', '<', '>', '|']
  | .mac => [':']
  | .linux => ['/']

/-- The full `controls` array of `CleanDocumentName`. -/
def documentNameControls (p : Platform) : List Char :=
  bidiControlChars ++ platformPathControls p

/-- `kBadExtensions = { ".lnk", ".scf" }` (line 239, Windows only). -/
def kBadExtensions : List Str := [".lnk".data, ".scf".data]

/-- `kMaskExtension = ".download"` (line 240). -/
def kMaskExtension : Str := ".download".data

/-- `QString CleanDocumentName(QString name)` (lines 204-249): replace every
control/reserved character by `'_'`; on Windows, additionally append
`".download"` when the trimmed, lower-cased name ends in a dangerous
extension. -/
def CleanDocumentName (p : Platform) (name : Str) : Str :=
  let name :=
    (documentNameControls p).foldl
      (fun n ch => n.map (fun c => if c = ch then '_' else c)) name
  match p with
  | .win =>
    let lower := lowerStr (trimStr name)
    if kBadExtensions.any (fun ext => strEndsWith lower ext) then
      name ++ kMaskExtension
    else name
  | _ => name

/-- `Document ParseDocument(data, suggestedFolder, date)` (lines 251-274). -/
def ParseDocument (p : Platform) (fdt : Int → Str)
    (mimeGlobs : Str → List Str) (data : MTPDocument)
    (suggestedFolder : Str) (date : Int) : Document :=
  match data with
  | .document id accessHash version ddate mimeType size dcId attributes =>
    let result : Document :=
      { id := id
        date := ddate
        file := { size := size
                  location := { dcId := dcId
                                data := .inputDocumentFileLocation
                                  id accessHash version } }
        mime := mimeType }
    let result := ParseAttributes result attributes
    { result with
      file := { result.file with
                suggestedPath := suggestedFolder ++
                  CleanDocumentName p (ComputeDocumentName fdt mimeGlobs
                    result (if date ≠ 0 then date else result.date)) } }
  | .documentEmpty id => { id := id }

/-- `GeoPoint ParseGeoPoint(const MTPGeoPoint &data)` (lines 276-284). -/
def ParseGeoPoint : MTPGeoPoint → GeoPoint
  | .geoPoint long lat => { latitude := lat, longitude := long, valid := true }
  | .geoPointEmpty => {}

/-- `Venue ParseVenue(const MTPDmessageMediaVenue &data)` (lines 286-292). -/
def ParseVenue (geo : MTPGeoPoint) (title : Str) (address : Str) : Venue :=
  { point := ParseGeoPoint geo, title := title, address := address }

/-- `Game ParseGame(const MTPGame &data, int32 botId)` (lines 294-304). -/
def ParseGame (data : MTPGame) (botId : Int) : Game :=
  match data with
  | .game id title shortName description =>
    { id := id, title := title, shortName := shortName
      description := description, botId := botId }

/-- `Invoice ParseInvoice(const MTPDmessageMediaInvoice &data)`
(lines 306-316). -/
def ParseInvoice (title : Str) (description : Str) (currency : Str)
    (totalAmount : Int) (receiptMsgId : Option Int) : Invoice :=
  { title := title, description := description, currency := currency
    amount := totalAmount, receiptMsgId := receiptMsgId.getD 0 }

/-- `UserpicsSlice ParseUserpicsSlice(const MTPVector<MTPPhoto> &data)`
(lines 318-330): one parsed photo per wire photo, in wire order. -/
def ParseUserpicsSlice (fdt : Int → Str) (data : List MTPPhoto) :
    UserpicsSlice :=
  { list := data.map (fun photo =>
      let suggestedPath := "PersonalPhotos/".data ++
        (match photo with
         | .photo _ _ date _ => PreparePhotoFileName fdt date
         | .photoEmpty _ => "Photo_Empty.jpg".data)
      ParsePhoto photo suggestedPath) }

/-- `ContactInfo ParseContactInfo(const MTPUser &data)` (lines 332-349). -/
def ParseContactInfoUser : MTPUser → ContactInfo
  | .user id firstName lastName phone _username _accessHash _botInfoVersion =>
    { userId := id
      firstName := firstName.getD []
      lastName := lastName.getD []
      phoneNumber := phone.getD [] }
  | .userEmpty id => { userId := id }

/-- `User ParseUser(const MTPUser &data)` (lines 360-378). -/
def ParseUser (data : MTPUser) : User :=
  let result : User := { info := ParseContactInfoUser data }
  match data with
  | .user id _ _ _ username accessHash botInfoVersion =>
    { result with
      username := username.getD []
      isBot := botInfoVersion.isSome
      input := { userId := id, accessHash := accessHash.getD 0 } }
  | .userEmpty id => { result with input := { userId := id, accessHash := 0 } }

/-- `Chat ParseChat(const MTPChat &data)` (lines 389-421). -/
def ParseChat : MTPChat → Chat
  | .chat id title =>
    { id := id, title := title, input := .inputPeerChat id }
  | .chatEmpty id =>
    { id := id, input := .inputPeerChat id }
  | .chatForbidden id title =>
    { id := id, title := title, input := .inputPeerChat id }
  | .channel id accessHash title username broadcast =>
    { id := id, broadcast := broadcast, title := title
      username := username.getD []
      input := .inputPeerChannel id accessHash }
  | .channelForbidden id accessHash title broadcast =>
    { id := id, broadcast := broadcast, title := title
      input := .inputPeerChannel id accessHash }

/-- `std::map` `emplace`: insert only when the key is absent. -/
def emplacePeer (m : PeerId → Option Peer) (k : PeerId) (v : Peer) :
    PeerId → Option Peer :=
  match m k with
  | some _ => m
  | none => fun k' => if k' = k then some v else m k'

/-- `std::map<PeerId, Peer> ParsePeersLists(users, chats)` (lines 485-500). -/
def ParsePeersLists (users : List MTPUser) (chats : List MTPChat) :
    PeerId → Option Peer :=
  let withUsers := users.foldl
    (fun m u =>
      let parsed := ParseUser u
      emplacePeer m (UserPeerId parsed.info.userId) (.user parsed))
    (fun _ => none)
  chats.foldl
    (fun m c =>
      let parsed := ParseChat c
      emplacePeer m (ChatPeerId parsed.id) (.chat parsed))
    withUsers

/-- `Media ParseMedia(data, folder, date, botId)` (lines 524-570).  The
`Expects(folder.isEmpty() || folder.endsWith('/'))` caller-discipline
assertion is elided; web pages are deliberately ignored (content stays
empty). -/
def ParseMedia (p : Platform) (fdt : Int → Str) (mimeGlobs : Str → List Str)
    (data : MTPMessageMedia) (folder : Str) (date : Int) (botId : Int) :
    Media :=
  match data with
  | .messageMediaPhoto photo ttlSeconds =>
    { content := match photo with
        | some photo => .photo (ParsePhoto photo
            (folder ++ "Photos/".data ++ PreparePhotoFileName fdt date))
        | none => .photo {}
      ttl := ttlSeconds.getD 0 }
  | .messageMediaGeo geo => { content := .geoPoint (ParseGeoPoint geo) }
  | .messageMediaContact phoneNumber firstName lastName userId =>
    { content := .contact { userId := userId, firstName := firstName
                            lastName := lastName, phoneNumber := phoneNumber } }
  | .messageMediaUnsupported => { content := .unsupported }
  | .messageMediaDocument document ttlSeconds =>
    { content := match document with
        | some document => .document (ParseDocument p fdt mimeGlobs document
            (folder ++ "Files/".data) date)
        | none => .document {}
      ttl := ttlSeconds.getD 0 }
  | .messageMediaWebPage => {}
  | .messageMediaVenue geo title address =>
    { content := .venue (ParseVenue geo title address) }
  | .messageMediaGame game => { content := .game (ParseGame game botId) }
  | .messageMediaInvoice title description currency totalAmount receiptMsgId =>
    { content := .invoice
        (ParseInvoice title description currency totalAmount receiptMsgId) }
  | .messageMediaGeoLive geo period =>
    { content := .geoPoint (ParseGeoPoint geo), ttl := period }
  | .messageMediaEmpty => {}

/-- `ServiceAction ParseServiceAction(data, mediaFolder, date)`
(lines 572-709).  `paymentSentMe` / `secureValuesSentMe` leave the content
empty ("Should not be in user inbox"). -/
def ParseServiceAction (fdt : Int → Str) (data : MTPMessageAction)
    (mediaFolder : Str) (date : Int) : ServiceAction :=
  match data with
  | .chatCreate title users => { content := .chatCreate title users }
  | .chatEditTitle title => { content := .chatEditTitle title }
  | .chatEditPhoto photo =>
    { content := .chatEditPhoto (ParsePhoto photo
        (mediaFolder ++ "Photos/".data ++ PreparePhotoFileName fdt date)) }
  | .chatDeletePhoto => { content := .chatDeletePhoto }
  | .chatAddUser users => { content := .chatAddUser users }
  | .chatDeleteUser userId => { content := .chatDeleteUser userId }
  | .chatJoinedByLink inviterId => { content := .chatJoinedByLink inviterId }
  | .channelCreate title => { content := .channelCreate title }
  | .chatMigrateTo channelId => { content := .chatMigrateTo channelId }
  | .channelMigrateFrom title chatId =>
    { content := .channelMigrateFrom title chatId }
  | .pinMessage => { content := .pinMessage }
  | .historyClear => { content := .historyClear }
  | .gameScore gameId score => { content := .gameScore gameId score }
  | .paymentSentMe => {}
  | .paymentSent currency totalAmount =>
    { content := .paymentSent currency totalAmount }
  | .phoneCall duration reason =>
    { content := .phoneCall (duration.getD 0)
        (reason.map fun r =>
          match r with
          | .missed => CallDiscardReason.Missed
          | .disconnect => CallDiscardReason.Disconnect
          | .hangup => CallDiscardReason.Hangup
          | .busy => CallDiscardReason.Busy) }
  | .screenshotTaken => { content := .screenshotTaken }
  | .customAction message => { content := .customAction message }
  | .botAllowed domain => { content := .botAllowed domain }
  | .secureValuesSentMe => {}
  | .secureValuesSent types =>
    { content := .secureValuesSent (types.map fun t =>
        match t with
        | .personalDetails => SecureValueKind.PersonalDetails
        | .passport => SecureValueKind.Passport
        | .driverLicense => SecureValueKind.DriverLicense
        | .identityCard => SecureValueKind.IdentityCard
        | .internalPassport => SecureValueKind.InternalPassport
        | .address => SecureValueKind.Address
        | .utilityBill => SecureValueKind.UtilityBill
        | .bankStatement => SecureValueKind.BankStatement
        | .rentalAgreement => SecureValueKind.RentalAgreement
        | .passportRegistration => SecureValueKind.PassportRegistration
        | .temporaryRegistration => SecureValueKind.TemporaryRegistration
        | .phone => SecureValueKind.Phone
        | .email => SecureValueKind.Email) }
  | .actionEmpty => {}

/-- `Message ParseMessage(data, mediaFolder)` (lines 727-786).  The bot id
handed to `ParseMedia` is the C++ conditional
`viaBotId ? viaBotId : forwardedFromId ? forwardedFromId : fromId`, whose
common type is the unsigned 64-bit `PeerId`, narrowed back to the `int32`
parameter of `ParseMedia`. -/
def ParseMessage (p : Platform) (fdt : Int → Str)
    (mimeGlobs : Str → List Str) (data : MTPMessage) (mediaFolder : Str) :
    Message :=
  match data with
  | .message id fromId fwdFrom viaBotId replyToMsgId date text media
      editDate postAuthor =>
    let result : Message :=
      { id := id
        date := date
        edited := editDate.getD 0
        fromId := fromId.getD 0
        forwardedFromId :=
          match fwdFrom with
          | some header =>
            (match header.channelId with
             | some channelId => ChatPeerId channelId
             | none =>
               match header.savedFromPeer with
               | some peer => ParsePeerId peer
               | none =>
                 match header.fromId with
                 | some fromId => UserPeerId fromId
                 | none => 0)
          | none => 0
        signature := postAuthor.getD []
        replyToMsgId := replyToMsgId.getD 0
        viaBotId := viaBotId.getD 0
        text := text }
    match media with
    | some media =>
      let botId := toInt32bits
        (if result.viaBotId ≠ 0 then toUInt64bits result.viaBotId
         else if result.forwardedFromId ≠ 0 then result.forwardedFromId
         else toUInt64bits result.fromId)
      { result with
        media := ParseMedia p fdt mimeGlobs media mediaFolder date botId }
    | none => result
  | .messageService id fromId date action replyToMsgId =>
    { id := id
      date := date
      action := ParseServiceAction fdt action mediaFolder date
      fromId := fromId.getD 0
      replyToMsgId := replyToMsgId.getD 0 }
  | .messageEmpty id => { id := id }

/-- `MessagesSlice ParseMessagesSlice(data, users, chats, mediaFolder)`
(lines 916-930): parse each wire message in wire order, then reverse the
parsed list, then attach the peer dictionary. -/
def ParseMessagesSlice (p : Platform) (fdt : Int → Str)
    (mimeGlobs : Str → List Str) (data : List MTPMessage)
    (users : List MTPUser) (chats : List MTPChat) (mediaFolder : Str) :
    MessagesSlice :=
  { list :=
      (data.map (fun message =>
        ParseMessage p fdt mimeGlobs message mediaFolder)).reverse
    peers := ParsePeersLists users chats }

end Data

/-! ## The orchestrator (`ApiWrap`, `export_api_wrap.cpp`)

`Expects`/`Assert` abort the process when violated; every operation that
contains one returns `Option`, `none` standing for the aborted run.  The
external collaborators are modelled as follows:

  * `Output::File` (its implementation lives outside these sources; the
    spec describes it as writing blocks sequentially to the destination
    file) is an in-memory list of successfully written blocks;
  * `Output::File::PrepareRelativePath` is an explicit parameter `prep`;
  * outgoing `upload.getFile` chunk requests are recorded in a
    `sentRequests` log (the transport layer is out of scope);
  * a finished transfer's `done(relativePath)` callback is recorded in a
    `doneFiles` log together with the blocks written for that file.
-/

namespace ApiWrap

/-- `constexpr auto kFileChunkSize = 128 * 1024`. -/
def kFileChunkSize : Int := 128 * 1024

/-- `constexpr auto kFileRequestsCount = 2`. -/
def kFileRequestsCount : Nat := 2

/-- `constexpr auto kLocationCacheSize = 100'000`. -/
def kLocationCacheSize : Nat := 100000

/-- The `Output::File` collaborator, modelled as the list of blocks written
so far (in order). -/
abbrev OutFile := List Str

/-- `FileProcess::Request` (lines 107-110): the in-flight chunk placeholder,
keyed by the offset it was requested at. -/
structure Request where
  offset : Int := 0
  bytes : Str := []
deriving DecidableEq, Repr

/-- `struct ApiWrap::FileProcess` (lines 95-113).  The `done` callback is
not stored here; its invocation is recorded in the `doneFiles` log. -/
structure FileProcess where
  file : OutFile := []
  relativePath : Str := []
  location : Data.FileLocation := {}
  offset : Int := 0
  size : Int := 0
  requests : List Request := []
deriving DecidableEq, Repr

/-- `struct ApiWrap::UserpicsProcess` (lines 84-93; the callback members
are owned by the external caller and not modelled). -/
structure UserpicsProcess where
  slice : Option Data.UserpicsSlice := none
  lastSlice : Bool := false
  fileIndex : Int := -1
deriving DecidableEq, Repr

/-- `struct ApiWrap::DialogsProcess::Single` (lines 134-144). -/
structure DialogsSingle where
  info : Data.DialogInfo := {}
  offsetId : Int := 1
  lastSlice : Bool := false
  fileIndex : Int := -1
deriving DecidableEq, Repr

/-- `struct ApiWrap::DialogsProcess` (lines 115-132). -/
structure DialogsProcess where
  info : List Data.DialogInfo := []
  offsetDate : Int := 0
  offsetId : Int := 0
  single : Option DialogsSingle := none
  singleIndex : Int := -1
deriving DecidableEq, Repr

/-- The wire result of `upload.getFile`: either a data chunk or a CDN
redirect (`mtpc_upload_fileCdnRedirect`). -/
inductive MTPuploadFile where
  | file (bytes : Str)
  | fileCdnRedirect
deriving DecidableEq, Repr

/-- The mutable state of an `ApiWrap` instance, restricted to the members
the modelled operations touch, plus the three observation logs (`errors`,
`sentRequests`, `doneFiles`). -/
structure ApiState where
  settings : Settings
  fileCache : LoadedFileCache
  fileProcess : Option FileProcess := none
  userpicsProcess : Option UserpicsProcess := none
  dialogsProcess : Option DialogsProcess := none
  errors : List Str := []
  sentRequests : List (Data.FileLocation × Int) := []
  doneFiles : List (Str × OutFile) := []

/-- A fresh `ApiWrap` right after `startExport` stored the settings: the
cache is constructed with `kLocationCacheSize` (lines 206-209, 215-222). -/
def initialState (settings : Settings) : ApiState :=
  { settings := settings, fileCache := initCache kLocationCacheSize }

/-- `ApiWrap::error(const QString &text)` (lines 857-863): publish one
`MTP_rpc_error` with message `"API_ERROR: " + text` on the error stream. -/
def pushError (st : ApiState) (text : Str) : ApiState :=
  { st with errors := st.errors ++ ["API_ERROR: ".data ++ text] }

/-- `prepareFileProcess(file)` (lines 761-774): fix the relative path via
the external `Output::File::PrepareRelativePath` (`prep`), remember the
location and the known size, start at offset 0 with no requests. -/
def prepareFileProcess (prep : Str → Str → Str) (settings : Settings)
    (file : Data.File) : FileProcess :=
  { file := []
    relativePath := prep settings.path file.suggestedPath
    location := file.location
    offset := 0
    size := file.size
    requests := [] }

/-- `void ApiWrap::loadFilePart()` (lines 776-805): do nothing without an
active process, with `kFileRequestsCount` requests already in flight, or
with the offset past a known size; otherwise push a placeholder for the
current offset, send the chunk request, and advance the offset by
`kFileChunkSize`.  (The delayed second request at the end of the C++
function is commented out in this snapshot.) -/
def loadFilePart (st : ApiState) : ApiState :=
  match st.fileProcess with
  | none => st
  | some process =>
    if process.requests.length ≥ kFileRequestsCount
        ∨ (process.size > 0 ∧ process.offset ≥ process.size) then st
    else
      let offset := process.offset
      let process :=
        { process with
          requests := process.requests ++ [{ offset := offset }]
          offset := process.offset + kFileChunkSize }
      { st with
        fileProcess := some process
        sentRequests := st.sentRequests ++ [(process.location, offset)] }

/-- `void ApiWrap::loadFile(file, done)` (lines 751-759):
`Expects(_fileProcess == nullptr)` and `Expects(file.location.dcId != 0)`,
then install a fresh process and request the first part. -/
def loadFile (prep : Str → Str → Str) (file : Data.File) (st : ApiState) :
    Option ApiState :=
  if st.fileProcess.isSome ∨ file.location.dcId = 0 then none
  else some (loadFilePart
    { st with fileProcess := some (prepareFileProcess prep st.settings file) })

/-- The `ranges::find` + `Assert` + assignment of `filePartDone`
(lines 822-830): locate the in-flight placeholder with the given offset and
store the received bytes in it; `none` when no placeholder matches (the
`Assert(i != end(requests))` failure). -/
def setRequestBytes (requests : List Request) (offset : Int) (bytes : Str) :
    Option (List Request) :=
  match requests with
  | [] => none
  | r :: rest =>
    if r.offset = offset then some ({ r with bytes := bytes } :: rest)
    else (setRequestBytes rest offset bytes).map (r :: ·)

/-- The head-first drain loop of `filePartDone` (lines 832-841): while the
front placeholder's bytes are present, write them to the output file and
pop it.  (`Output::File::writeBlock` is the external sink, modelled as an
always-successful append.) -/
def drainRequests (requests : List Request) (file : OutFile) :
    List Request × OutFile :=
  match requests with
  | [] => ([], file)
  | r :: rest =>
    if r.bytes.isEmpty then (r :: rest, file)
    else drainRequests rest (file ++ [r.bytes])

/-- The completion tail of `filePartDone` (lines 851-854): take the
process, persist `(location, relativePath)` in the cache, and invoke
`done(relativePath)` — recorded in `doneFiles` with the file's blocks. -/
def completeFileProcess (st : ApiState) (process : FileProcess) : ApiState :=
  { st with
    fileProcess := none
    fileCache := st.fileCache.save process.location process.relativePath
    doneFiles := st.doneFiles ++ [(process.relativePath, process.file)] }

/-- `void ApiWrap::filePartDone(int offset, const MTPupload_File &result)`
(lines 807-855).  Preconditions (`Expects`): an active process with a
non-empty request queue.  A CDN redirect publishes one error and returns;
empty bytes with a known non-zero size publish one error and return; empty
bytes with unknown size complete the transfer; otherwise the received bytes
are stored in their placeholder, the queue is drained head-first, and the
transfer either continues (`loadFilePart`) or completes. -/
def filePartDone (offset : Int) (result : MTPuploadFile) (st : ApiState) :
    Option ApiState :=
  match st.fileProcess with
  | none => none
  | some process =>
    if process.requests.isEmpty then none
    else
      match result with
      | .fileCdnRedirect =>
        some (pushError st "Cdn redirect is not supported.".data)
      | .file bytes =>
        if bytes.isEmpty then
          if process.size > 0 then
            some (pushError st "Empty bytes received in file part.".data)
          else
            some (completeFileProcess st process)
        else
          match setRequestBytes process.requests offset bytes with
          | none => none
          | some filled =>
            let drained := drainRequests filled process.file
            let process := { process with
                             requests := drained.1, file := drained.2 }
            let st := { st with fileProcess := some process }
            if ¬ drained.1.isEmpty ∨ process.size = 0
                ∨ process.size > process.offset then
              some (loadFilePart st)
            else
              some (completeFileProcess st process)

/-- Delivering a sequence of chunk responses to `filePartDone`, in order. -/
def deliverParts (parts : List (Int × MTPuploadFile)) (st : ApiState) :
    Option ApiState :=
  parts.foldl (fun acc part => acc.bind (filePartDone part.1 part.2))
    (some st)

/-- The media-type classification of `processFileLoad` (lines 699-717): a
document is classified by its flags, anything else (including a missing
message) counts as a photo. -/
def fileTypeOf (message : Option Data.Message) : Nat :=
  match message with
  | none => MediaSettingsType.Photo
  | some message =>
    match message.media.content with
    | .document data =>
      if data.isSticker then MediaSettingsType.Sticker
      else if data.isVideoMessage then MediaSettingsType.VideoMessage
      else if data.isVoiceMessage then MediaSettingsType.VoiceMessage
      else if data.isAnimated then MediaSettingsType.GIF
      else if data.isVideoFile then MediaSettingsType.Video
      else MediaSettingsType.File
    | _ => MediaSettingsType.Photo

/-- `bool ApiWrap::writePreloadedFile(Data::File &file)` (lines 730-749):
a cache hit resolves the file immediately; otherwise, when inline content
is present, it is written out through `_fileProcess->file` — note that the
C++ dereferences the member `_fileProcess` (not the local `process`), so
this path aborts (`none`) when no file process is active — and the mapping
is saved to the cache. -/
def writePreloadedFile (prep : Str → Str → Str) (file : Data.File)
    (st : ApiState) : Option (ApiState × Data.File × Bool) :=
  match st.fileCache.find file.location with
  | some path => some (st, { file with relativePath := path }, true)
  | none =>
    if file.content.isEmpty then some (st, file, false)
    else
      match st.fileProcess with
      | none => none
      | some target =>
        let process := prepareFileProcess prep st.settings file
        let target := { target with file := target.file ++ [file.content] }
        let file := { file with relativePath := process.relativePath }
        some ({ st with
                fileProcess := some target
                fileCache := st.fileCache.save file.location
                  file.relativePath },
              file, true)

/-- `bool ApiWrap::processFileLoad(file, done, message)` (lines 684-728):
already-resolved files are ready; a location with `dcId == 0` (the
`!file.location` test; `FileLocation::operator bool` lives in the absent
header, and `ParseLocation` encodes unavailability as `dcId = 0`) is
skipped as `Unavailable`; then the preloaded-file path; then a disabled
media type is skipped as `FileType`; a size of at least the limit is
skipped as `FileSize`; otherwise the chunked download starts. -/
def processFileLoad (prep : Str → Str → Str) (file : Data.File)
    (message : Option Data.Message) (st : ApiState) :
    Option (ApiState × Data.File × Bool) :=
  if ¬ file.relativePath.isEmpty then some (st, file, true)
  else if file.location.dcId = 0 then
    some (st, { file with skipReason := some .Unavailable }, true)
  else
    match writePreloadedFile prep file st with
    | none => none
    | some (st', file', true) => some (st', file', true)
    | some (st', file', false) =>
      let type := fileTypeOf message
      if st'.settings.media.types &&& type ≠ type then
        some (st', { file' with skipReason := some .FileType }, true)
      else if file'.size ≥ st'.settings.media.sizeLimit then
        some (st', { file' with skipReason := some .FileSize }, true)
      else
        (loadFile prep file' st').map (fun st'' => (st'', file', false))

/-- `ApiWrap::requestUserpics` (lines 276-307): `Expects(_userpicsProcess
== nullptr)`, then install the process (the initial `photos.GetUserPhotos`
request is sent to the transport collaborator). -/
def requestUserpics (st : ApiState) : Option ApiState :=
  if st.userpicsProcess.isSome then none
  else some { st with userpicsProcess := some {} }

/-- `ApiWrap::finishUserpics` (lines 384-388): `Expects(_userpicsProcess
!= nullptr)`, then `base::take` the process. -/
def finishUserpics (st : ApiState) : Option ApiState :=
  if st.userpicsProcess.isNone then none
  else some { st with userpicsProcess := none }

/-- `ApiWrap::requestDialogs` (lines 406-422): `Expects(_dialogsProcess ==
nullptr)`, then install the process. -/
def requestDialogs (st : ApiState) : Option ApiState :=
  if st.dialogsProcess.isSome then none
  else some { st with dialogsProcess := some {} }

/-- `ApiWrap::finishDialogs` (lines 677-682): `Expects(_dialogsProcess !=
nullptr)` and `Expects(single == nullptr)`, then take the process. -/
def finishDialogs (st : ApiState) : Option ApiState :=
  match st.dialogsProcess with
  | none => none
  | some process =>
    if process.single.isSome then none
    else some { st with dialogsProcess := none }

/-- The states an `ApiWrap` can reach.  The alphabet consists of the
operations that touch the paginated processes or the file transfer.  The
callers of `requestUserpics`/`requestDialogs` live in the (absent)
controller; their sequencing is modelled from the spec, which fixes the
stage order Userpics before Dialogs and starts a stage only after the
previous one finished — hence the `= none` side conditions on the two
start steps.  Everything else is guarded exactly by the code's own
`Expects`/`Assert` preconditions (an operation that returns `none`
aborted, so it produces no new reachable state). -/
inductive Reachable (prep : Str → Str → Str) (settings : Settings) :
    ApiState → Prop where
  | init : Reachable prep settings (initialState settings)
  | startUserpics {st st' : ApiState} :
      Reachable prep settings st →
      st.dialogsProcess = none →
      requestUserpics st = some st' →
      Reachable prep settings st'
  | userpicsDone {st st' : ApiState} :
      Reachable prep settings st →
      finishUserpics st = some st' →
      Reachable prep settings st'
  | startDialogs {st st' : ApiState} :
      Reachable prep settings st →
      st.userpicsProcess = none →
      requestDialogs st = some st' →
      Reachable prep settings st'
  | dialogsDone {st st' : ApiState} :
      Reachable prep settings st →
      finishDialogs st = some st' →
      Reachable prep settings st'
  | fileLoad {st st' : ApiState} {file : Data.File} :
      Reachable prep settings st →
      loadFile prep file st = some st' →
      Reachable prep settings st'
  | filePart {st : ApiState} :
      Reachable prep settings st →
      Reachable prep settings (loadFilePart st)
  | partDone {st st' : ApiState} {offset : Int} {result : MTPuploadFile} :
      Reachable prep settings st →
      filePartDone offset result st = some st' →
      Reachable prep settings st'
  | fileProcessLoad {st st' : ApiState} {file file' : Data.File}
      {message : Option Data.Message} {ready : Bool} :
      Reachable prep settings st →
      processFileLoad prep file message st = some (st', file', ready) →
      Reachable prep settings st'

/-- Number of active paginated processes (Userpics, Dialogs) of a state. -/
def paginatedCount (st : ApiState) : Nat :=
  (if st.userpicsProcess.isSome then 1 else 0)
    + (if st.dialogsProcess.isSome then 1 else 0)

end ApiWrap

end Export

/-! # Theorems -/

open Export Export.Data Export.ApiWrap

/-! ## Claim C4: peer-id round trip and namespace disjointness -/

lemma toUInt32bits_lt (x : Int) : toUInt32bits x < 2 ^ 32 := by
  have h1 : x % (2 ^ 32 : Int) < 2 ^ 32 := Int.emod_lt_of_pos x (by norm_num)
  have h2 : (0 : Int) ≤ x % (2 ^ 32 : Int) := Int.emod_nonneg x (by norm_num)
  unfold toUInt32bits
  omega

lemma toUInt32bits_of_range (x : Int) (h0 : 0 ≤ x) (h1 : x < 2 ^ 31) :
    (toUInt32bits x : Int) = x := by
  unfold toUInt32bits
  have : x % (2 ^ 32 : Int) = x := Int.emod_eq_of_lt h0 (by omega)
  rw [this]
  exact Int.toNat_of_nonneg h0

lemma or_pow_and_mask {j : Nat} (hj : 32 ≤ j) {y : Nat} (hy : y < 2 ^ 32) :
    (2 ^ j ||| y) &&& (2 ^ 32 - 1) = y := by
  apply Nat.eq_of_testBit_eq
  intro i
  rw [Nat.testBit_and, Nat.testBit_or, Nat.testBit_two_pow_sub_one,
    Nat.testBit_two_pow]
  by_cases hi : i < 32
  · have : j ≠ i := by omega
    simp [hi, this]
  · have hyi : y.testBit i = false :=
      Nat.testBit_lt_two_pow (lt_of_lt_of_le hy (Nat.pow_le_pow_right (by omega) (by omega)))
    simp [hi, hyi]

lemma userShift_eq : kUserPeerIdShift = 2 ^ 32 := by decide

lemma chatShift_eq : kChatPeerIdShift = 2 ^ 33 := by decide

/-- Claim C4: for every valid non-negative user id `x` (a non-negative
`int32`), `BarePeerId (UserPeerId x) = x`; and for every `x`,
`UserPeerId x ≠ ChatPeerId x` — the user and chat peer-id namespaces are
disjoint. -/
theorem c4_peer_id_roundtrip_and_disjointness :
    (∀ x : Int, 0 ≤ x → x < 2 ^ 31 → BarePeerId (UserPeerId x) = x) ∧
    (∀ x : Int, UserPeerId x ≠ ChatPeerId x) := by
  constructor
  · intro x h0 h1
    have hy : toUInt32bits x < 2 ^ 32 := toUInt32bits_lt x
    have hylt : toUInt32bits x < 2 ^ 31 := by
      have := toUInt32bits_of_range x h0 h1
      omega
    unfold BarePeerId UserPeerId
    rw [userShift_eq]
    have hmask : (0xFFFFFFFF : Nat) = 2 ^ 32 - 1 := by norm_num
    rw [hmask, or_pow_and_mask (le_refl 32) hy]
    unfold toInt32bits
    have hmod : toUInt32bits x % 2 ^ 32 = toUInt32bits x := Nat.mod_eq_of_lt hy
    simp only [hmod, hylt, if_pos]
    exact toUInt32bits_of_range x h0 h1
  · intro x h
    have hy : toUInt32bits x < 2 ^ 32 := toUInt32bits_lt x
    have hbit : (UserPeerId x).testBit 32 = (ChatPeerId x).testBit 32 := by
      rw [h]
    rw [UserPeerId, ChatPeerId, userShift_eq, chatShift_eq] at hbit
    rw [Nat.testBit_or, Nat.testBit_or, Nat.testBit_two_pow,
      Nat.testBit_two_pow, Nat.testBit_lt_two_pow hy] at hbit
    simp at hbit

/-- Witness for C4 at a concrete input: `x = 12345` satisfies the range
hypotheses and the round trip holds there. -/
theorem c4_witness :
    (0 : Int) ≤ 12345 ∧ (12345 : Int) < 2 ^ 31 ∧
    BarePeerId (UserPeerId 12345) = 12345 ∧ UserPeerId 12345 ≠ ChatPeerId 12345 :=
  ⟨by norm_num, by norm_num,
    c4_peer_id_roundtrip_and_disjointness.1 12345 (by norm_num) (by norm_num),
    c4_peer_id_roundtrip_and_disjointness.2 12345⟩

/-! ## Claims C2 and C3: cache eviction is FIFO by insertion -/

lemma saveAll_cons (c : LoadedFileCache) (p : Data.FileLocation × Str)
    (ps : List (Data.FileLocation × Str)) :
    c.saveAll (p :: ps) = (c.save p.1 p.2).saveAll ps := rfl

lemma save_no_evict {c : LoadedFileCache} {loc : Data.FileLocation}
    {path : Str} (h : c.list.length + 1 ≤ c.limit) :
    c.save loc path =
      { c with
        map := fun k =>
          if k = ComputeLocationKey loc then some path else c.map k
        list := c.list ++ [ComputeLocationKey loc] } := by
  unfold LoadedFileCache.save
  simp only []
  rw [if_neg]
  simp only [List.length_append, List.length_cons, List.length_nil]
  omega

lemma saveAll_no_evict :
    ∀ (ps : List (Data.FileLocation × Str)) (c : LoadedFileCache),
      c.list.length + ps.length ≤ c.limit →
      (c.saveAll ps).list
          = c.list ++ ps.map (fun p => ComputeLocationKey p.1) ∧
        (c.saveAll ps).limit = c.limit := by
  intro ps
  induction ps with
  | nil => intro c _h; simp [LoadedFileCache.saveAll]
  | cons p rest ih =>
    intro c h
    have hlen : c.list.length + 1 ≤ c.limit := by
      simp only [List.length_cons] at h
      omega
    rw [saveAll_cons, save_no_evict hlen]
    obtain ⟨h1, h2⟩ := ih
      { c with
        map := fun k =>
          if k = ComputeLocationKey p.1 then some p.2 else c.map k
        list := c.list ++ [ComputeLocationKey p.1] }
      (by
        simp only [List.length_append, List.length_cons, List.length_nil]
        simp only [List.length_cons] at h
        omega)
    refine ⟨?_, h2⟩
    rw [h1]
    simp

/-- Claim C2: starting from an empty cache with limit `L`, after `save` on
`L + 1` pairwise-distinct locations, `find` on the very first saved
location returns empty — insertion order drives eviction, and `find` (a
`const` member that never mutates the cache) can not refresh recency. -/
theorem c2_cache_fifo_eviction (L : Nat)
    (ps : List (Data.FileLocation × Str)) (first : Data.FileLocation × Str)
    (hfirst : ps.head? = some first) (hlen : ps.length = L + 1)
    (_hdist : ps.Pairwise (fun a b => a.1 ≠ b.1)) :
    ((initCache L).saveAll ps).find first.1 = none := by
  rcases List.eq_nil_or_concat ps with hnil | ⟨ys, z, hz⟩
  · subst hnil; simp at hfirst
  · rw [List.concat_eq_append] at hz
    subst hz
    have hys : ys.length = L := by
      simp only [List.length_append, List.length_cons, List.length_nil] at hlen
      omega
    obtain ⟨hlist, hlimit⟩ := saveAll_no_evict ys (initCache L)
      (by simp [initCache, hys])
    have hsplit : (initCache L).saveAll (ys ++ [z])
        = ((initCache L).saveAll ys).save z.1 z.2 := by
      simp [LoadedFileCache.saveAll, List.foldl_append]
    rw [hsplit]
    set c' := (initCache L).saveAll ys with hc'
    have hclist : c'.list = ys.map (fun p => ComputeLocationKey p.1) := by
      rw [hlist]; simp [initCache]
    have hcond :
        (c'.list ++ [ComputeLocationKey z.1]).length > c'.limit := by
      simp only [List.length_append, List.length_cons, List.length_nil,
        hclist, List.length_map, hys, hlimit, initialState, initCache]
      omega
    have hfront :
        (c'.list ++ [ComputeLocationKey z.1]).headD (ComputeLocationKey z.1)
          = ComputeLocationKey first.1 := by
      rw [hclist]
      cases ys with
      | nil =>
        simp only [List.map_nil, List.nil_append, List.headD_cons]
        simp only [List.nil_append, List.head?_cons, Option.some.injEq] at hfirst
        rw [hfirst]
      | cons y ys' =>
        simp only [List.map_cons, List.cons_append, List.headD_cons]
        simp only [List.cons_append, List.head?_cons, Option.some.injEq] at hfirst
        rw [hfirst]
    unfold LoadedFileCache.save
    simp only []
    rw [if_pos hcond]
    unfold LoadedFileCache.find
    simp only []
    rw [hfront, if_pos rfl]

/-- Witness for C2 at a concrete input: limit 1, two distinct document
locations saved in order; the first one is evicted. -/
theorem c2_cache_fifo_eviction_witness :
    ([(({ dcId := 1, data := .inputDocumentFileLocation 10 0 0 }
          : Data.FileLocation), "a".data),
      (({ dcId := 1, data := .inputDocumentFileLocation 20 0 0 }
          : Data.FileLocation), "b".data)]).length = 1 + 1 ∧
    ((initCache 1).saveAll
        [({ dcId := 1, data := .inputDocumentFileLocation 10 0 0 }, "a".data),
         ({ dcId := 1, data := .inputDocumentFileLocation 20 0 0 }, "b".data)]).find
      { dcId := 1, data := .inputDocumentFileLocation 10 0 0 } = none :=
  ⟨rfl,
    c2_cache_fifo_eviction 1
      [({ dcId := 1, data := .inputDocumentFileLocation 10 0 0 }, "a".data),
       ({ dcId := 1, data := .inputDocumentFileLocation 20 0 0 }, "b".data)]
      ({ dcId := 1, data := .inputDocumentFileLocation 10 0 0 }, "a".data)
      rfl rfl (by decide)⟩

lemma save_list_no_evict {c : LoadedFileCache} {loc : Data.FileLocation}
    {path : Str} (h : c.list.length + 1 ≤ c.limit) :
    (c.save loc path).list = c.list ++ [ComputeLocationKey loc]
      ∧ (c.save loc path).limit = c.limit := by
  rw [save_no_evict h]
  exact ⟨rfl, rfl⟩

/-- Claim C3: the re-save anomaly of `LoadedFileCache::save`.  (a) `save`
appends to the eviction queue even when the key is already present, so one
key can occupy several queue slots while the map holds a single entry;
(b) on a cache holding exactly `L` (= limit) locations, re-saving the
oldest location erases the mapping that was just written — `find` on it
returns empty immediately after it was the most recently saved. -/
theorem c3_cache_resave_anomaly :
    (∀ (c : LoadedFileCache) (loc : Data.FileLocation) (q q' : Str),
      c.list.length + 2 ≤ c.limit →
      ((c.save loc q).save loc q').list
        = c.list ++ [ComputeLocationKey loc, ComputeLocationKey loc]) ∧
    (∀ (L : Nat) (ps : List (Data.FileLocation × Str))
      (first : Data.FileLocation × Str) (path' : Str),
      ps.head? = some first → ps.length = L →
      ps.Pairwise (fun a b => a.1 ≠ b.1) →
      (((initCache L).saveAll ps).save first.1 path').find first.1 = none) := by
  constructor
  · intro c loc q q' h
    obtain ⟨l1, m1⟩ := @save_list_no_evict c loc q (by omega)
    have h2 : (c.save loc q).list.length + 1 ≤ (c.save loc q).limit := by
      rw [l1, m1]
      simp only [List.length_append, List.length_cons, List.length_nil]
      omega
    obtain ⟨l2, _⟩ := @save_list_no_evict (c.save loc q) loc q' h2
    rw [l2, l1]
    simp
  · intro L ps first path' hfirst hlen _hdist
    obtain ⟨hlist, hlimit⟩ := saveAll_no_evict ps (initCache L)
      (by simp [initCache, hlen])
    set c' := (initCache L).saveAll ps with hc'
    have hclist : c'.list = ps.map (fun p => ComputeLocationKey p.1) := by
      rw [hlist]; simp [initCache]
    have hcond :
        (c'.list ++ [ComputeLocationKey first.1]).length > c'.limit := by
      simp only [List.length_append, List.length_cons, List.length_nil,
        hclist, List.length_map, hlen, hlimit, initCache]
      omega
    have hfront :
        (c'.list ++ [ComputeLocationKey first.1]).headD
            (ComputeLocationKey first.1)
          = ComputeLocationKey first.1 := by
      rw [hclist]
      cases ps with
      | nil => simp at hfirst
      | cons y ys' =>
        simp only [List.map_cons, List.cons_append, List.headD_cons]
        simp only [List.head?_cons, Option.some.injEq] at hfirst
        rw [hfirst]
    unfold LoadedFileCache.save
    simp only []
    rw [if_pos hcond]
    unfold LoadedFileCache.find
    simp only []
    rw [hfront, if_pos rfl]

/-- Witness for C3 at concrete inputs: part (a) on an empty cache of
limit 2, part (b) on a full cache of limit 2. -/
theorem c3_cache_resave_anomaly_witness :
    (((initCache 2).save
          { dcId := 1, data := .inputDocumentFileLocation 10 0 0 } "a".data).save
        { dcId := 1, data := .inputDocumentFileLocation 10 0 0 } "b".data).list
      = [ComputeLocationKey { dcId := 1, data := .inputDocumentFileLocation 10 0 0 },
         ComputeLocationKey { dcId := 1, data := .inputDocumentFileLocation 10 0 0 }] ∧
    ((((initCache 2).saveAll
        [({ dcId := 1, data := .inputDocumentFileLocation 10 0 0 }, "a".data),
         ({ dcId := 1, data := .inputDocumentFileLocation 20 0 0 }, "b".data)]).save
        { dcId := 1, data := .inputDocumentFileLocation 10 0 0 } "c".data).find
      { dcId := 1, data := .inputDocumentFileLocation 10 0 0 }) = none :=
  ⟨c3_cache_resave_anomaly.1 (initCache 2)
      { dcId := 1, data := .inputDocumentFileLocation 10 0 0 } "a".data "b".data
      (by decide),
    c3_cache_resave_anomaly.2 2
      [({ dcId := 1, data := .inputDocumentFileLocation 10 0 0 }, "a".data),
       ({ dcId := 1, data := .inputDocumentFileLocation 20 0 0 }, "b".data)]
      ({ dcId := 1, data := .inputDocumentFileLocation 10 0 0 }, "a".data)
      "c".data rfl rfl (by decide)⟩

/-! ## Claim C6: dialog folder numbering -/

lemma digitChar_isDigit {k : Nat} (h : k < 10) :
    (Nat.digitChar k).isDigit = true := by
  interval_cases k <;> decide

lemma digitChar_toNat {k : Nat} (h : k < 10) :
    (Nat.digitChar k).toNat - 48 = k := by
  interval_cases k <;> decide

lemma decimalDigits_ne_nil (n : Nat) : decimalDigits n ≠ [] := by
  rw [decimalDigits]
  split
  · simp
  · simp

lemma decimalDigits_all_digit (n : Nat) :
    ∀ c ∈ decimalDigits n, c.isDigit = true := by
  induction n using Nat.strong_induction_on with
  | _ n ih =>
    rw [decimalDigits]
    split
    · intro c hc
      rw [List.mem_singleton] at hc
      subst hc
      exact digitChar_isDigit (by omega)
    · intro c hc
      rcases List.mem_append.mp hc with h | h
      · exact ih (n / 10) (Nat.div_lt_self (by omega) (by omega)) c h
      · rw [List.mem_singleton] at h
        subst h
        exact digitChar_isDigit (Nat.mod_lt n (by omega))

lemma decimalFoldl_digits (n : Nat) :
    ∀ a : Nat,
      (decimalDigits n).foldl (fun x c => x * 10 + (c.toNat - 48)) a
        = a * 10 ^ (decimalDigits n).length + n := by
  induction n using Nat.strong_induction_on with
  | _ n ih =>
    intro a
    rw [decimalDigits]
    split
    · next h =>
      simp only [List.foldl_cons, List.foldl_nil, List.length_cons,
        List.length_nil, digitChar_toNat h]
      norm_num
    · next h =>
      rw [List.foldl_append, List.length_append,
        ih (n / 10) (Nat.div_lt_self (by omega) (by omega)) a]
      simp only [List.foldl_cons, List.foldl_nil, List.length_cons,
        List.length_nil, digitChar_toNat (Nat.mod_lt n (by omega))]
      rw [pow_succ, ← mul_assoc]
      generalize a * 10 ^ (decimalDigits (n / 10)).length = B
      omega

lemma decimalValue_decimalDigits (n : Nat) :
    decimalValue (decimalDigits n) = n := by
  have := decimalFoldl_digits n 0
  simpa [decimalValue] using this

lemma decimalValue_replicate_zero (m : Nat) (l : Str) :
    decimalValue (List.replicate m '0' ++ l) = decimalValue l := by
  unfold decimalValue
  rw [List.foldl_append]
  congr 1
  induction m with
  | zero => rfl
  | succ m ihm =>
    rw [List.replicate_succ, List.foldl_cons]
    have h0 : (0 : Nat) * 10 + ('0'.toNat - 48) = 0 := by decide
    simpa only [h0] using ihm

lemma FillLeft_length (data : Str) (length : Nat) (filler : Char) :
    (FillLeft data length filler).length = max length data.length := by
  unfold FillLeft
  split
  · next h => omega
  · next h =>
    simp only [List.length_append, List.length_replicate]
    omega

lemma FillLeft_decimalValue (s : Str) (w : Nat) :
    decimalValue (FillLeft s w '0') = decimalValue s := by
  unfold FillLeft
  split
  · rfl
  · exact decimalValue_replicate_zero _ s

lemma FillLeft_all_digit {s : Str} {w : Nat}
    (hs : ∀ c ∈ s, c.isDigit = true) :
    ∀ c ∈ FillLeft s w '0', c.isDigit = true := by
  unfold FillLeft
  split
  · exact hs
  · intro c hc
    rcases List.mem_append.mp hc with h | h
    · rw [List.eq_of_mem_replicate h]; decide
    · exact hs c h

lemma FillLeft_ne_nil {s : Str} {w : Nat} {f : Char} (h : s ≠ []) :
    FillLeft s w f ≠ [] := by
  unfold FillLeft
  split
  · exact h
  · simp [h]

lemma fillPathsFrom_getElem? :
    ∀ (l : List Data.DialogInfo) (digits idx i : Nat),
      (fillPathsFrom digits idx l)[i]?
        = (l[i]?).map (fun d =>
            { d with relativePath := "Chats/chat_".data
                ++ Data.NumberToString (idx + i + 1) digits '0' ++ ['/'] }) := by
  intro l
  induction l with
  | nil => intro digits idx i; simp [fillPathsFrom]
  | cons d rest ih =>
    intro digits idx i
    cases i with
    | zero => simp [fillPathsFrom]
    | succ i =>
      simp only [fillPathsFrom, List.getElem?_cons_succ]
      rw [ih digits (idx + 1) i]
      have he : idx + 1 + i + 1 = idx + (i + 1) + 1 := by omega
      simp only [he]

/-- Claim C6: for a collected dialog list of size `N` (with `i < N`, and
`N` small enough for a `size_t`), the `i`-th dialog's `relativePath` is
`Chats/chat_<k>/` where the digit string `ds` denotes `k = i + 1`
(numbering starts at 1 and is strictly increasing in list order) and is
zero-padded to `len(str(N - 1))` digits (longer numbers are not
truncated). -/
theorem c6_dialog_folder_numbering (dialogs : List Data.DialogInfo)
    (hN : dialogs.length < 2 ^ 64) (i : Nat) (hi : i < dialogs.length) :
    ∃ d ds, (fillDialogsPaths dialogs)[i]? = some d ∧
      d.relativePath = "Chats/chat_".data ++ ds ++ ['/'] ∧
      ds ≠ [] ∧ (∀ c ∈ ds, c.isDigit = true) ∧
      decimalValue ds = i + 1 ∧
      ds.length = max (decimalDigits (dialogs.length - 1)).length
        (decimalDigits (i + 1)).length := by
  have hpos : 1 ≤ dialogs.length := by omega
  unfold fillDialogsPaths
  have hmod : (dialogs.length + (2 ^ 64 - 1)) % 2 ^ 64
      = dialogs.length - 1 := by omega
  rw [hmod]
  have hdig : Data.NumberToString (dialogs.length - 1) 0 '0'
      = decimalDigits (dialogs.length - 1) := by
    unfold Data.NumberToString Data.FillLeft
    rw [if_pos (Nat.zero_le _)]
  rw [hdig]
  rw [fillPathsFrom_getElem?]
  rw [List.getElem?_eq_getElem hi]
  simp only [Nat.zero_add, Option.map_some']
  refine ⟨_, Data.NumberToString (i + 1)
      (decimalDigits (dialogs.length - 1)).length '0', rfl, rfl, ?_, ?_, ?_, ?_⟩
  · exact FillLeft_ne_nil (decimalDigits_ne_nil _)
  · exact FillLeft_all_digit (decimalDigits_all_digit _)
  · unfold Data.NumberToString
    rw [FillLeft_decimalValue, decimalValue_decimalDigits]
  · unfold Data.NumberToString
    rw [FillLeft_length]

/-- Witness for C6 at a concrete input: a list of two dialogs, looking at
index 1. -/
theorem c6_dialog_folder_numbering_witness :
    (([{}, {}] : List Data.DialogInfo).length < 2 ^ 64
        ∧ 1 < ([{}, {}] : List Data.DialogInfo).length) ∧
      ∃ d ds, (fillDialogsPaths [{}, {}])[1]? = some d ∧
        d.relativePath = "Chats/chat_".data ++ ds ++ ['/'] ∧
        ds ≠ [] ∧ (∀ c ∈ ds, c.isDigit = true) ∧
        decimalValue ds = 1 + 1 ∧
        ds.length = max (decimalDigits (([{}, {}] : List Data.DialogInfo).length - 1)).length
          (decimalDigits (1 + 1)).length :=
  ⟨⟨by decide, by decide⟩,
    c6_dialog_folder_numbering [{}, {}] (by decide) 1 (by decide)⟩

/-! ## Claim C10: filename sanitization -/

lemma strEndsWith_iff {l s : Str} :
    Data.strEndsWith l s = true ↔ ∃ t, l = t ++ s := by
  unfold Data.strEndsWith
  rw [Bool.and_eq_true, decide_eq_true_iff, decide_eq_true_iff]
  constructor
  · rintro ⟨hle, hdrop⟩
    refine ⟨l.take (l.length - s.length), ?_⟩
    conv_lhs => rw [← List.take_append_drop (l.length - s.length) l]
    rw [hdrop]
  · rintro ⟨t, rfl⟩
    constructor
    · simp
    · simp only [List.length_append]
      have : t.length + s.length - s.length = t.length := by omega
      rw [this, List.drop_left]

lemma notMem_map_replace_self {ch : Char} (h : ch ≠ '_') (l : Str) :
    ch ∉ l.map (fun c => if c = ch then '_' else c) := by
  intro hmem
  rcases List.mem_map.mp hmem with ⟨c, _hc, heq⟩
  by_cases hcc : c = ch
  · rw [if_pos hcc] at heq
    exact h heq.symm
  · rw [if_neg hcc] at heq
    exact hcc heq

lemma notMem_map_replace_other {ch ch' : Char} {l : Str} (h : ch ≠ '_')
    (hl : ch ∉ l) :
    ch ∉ l.map (fun c => if c = ch' then '_' else c) := by
  intro hmem
  rcases List.mem_map.mp hmem with ⟨c, hc, heq⟩
  by_cases hcc : c = ch'
  · rw [if_pos hcc] at heq
    exact h heq.symm
  · rw [if_neg hcc] at heq
    exact hl (heq ▸ hc)

lemma notMem_foldl_replace_preserve (cs : List Char) :
    ∀ (m : Str) (ch : Char), ch ≠ '_' → ch ∉ m →
      ch ∉ cs.foldl (fun n c => n.map (fun x => if x = c then '_' else x)) m := by
  induction cs with
  | nil => intro m ch _ hm; exact hm
  | cons c rest ih =>
    intro m ch hu hm
    rw [List.foldl_cons]
    exact ih _ ch hu (notMem_map_replace_other hu hm)

lemma notMem_foldl_replace (cs : List Char) :
    ∀ (name : Str) (ch : Char), ch ∈ cs → ch ≠ '_' →
      ch ∉ cs.foldl (fun n c => n.map (fun x => if x = c then '_' else x)) name := by
  induction cs with
  | nil => intro name ch hch; cases hch
  | cons c rest ih =>
    intro name ch hch hu
    rw [List.foldl_cons]
    rcases List.mem_cons.mp hch with rfl | hmem
    · exact notMem_foldl_replace_preserve rest _ ch hu
        (notMem_map_replace_self hu name)
    · exact ih _ ch hmem hu

lemma foldl_replace_append (cs : List Char) :
    ∀ (t s : Str),
      cs.foldl (fun n c => n.map (fun x => if x = c then '_' else x)) (t ++ s)
        = cs.foldl (fun n c => n.map (fun x => if x = c then '_' else x)) t
          ++ cs.foldl (fun n c => n.map (fun x => if x = c then '_' else x)) s := by
  induction cs with
  | nil => intro t s; rfl
  | cons c rest ih =>
    intro t s
    simp only [List.foldl_cons, List.map_append]
    exact ih _ _

lemma foldl_replace_fixed (cs : List Char) :
    ∀ (s : Str),
      (∀ c ∈ cs, s.map (fun x => if x = c then '_' else x) = s) →
      cs.foldl (fun n c => n.map (fun x => if x = c then '_' else x)) s = s := by
  induction cs with
  | nil => intro s _; rfl
  | cons c rest ih =>
    intro s h
    rw [List.foldl_cons, h c (List.mem_cons_self c rest)]
    exact ih s (fun c' hc' => h c' (List.mem_cons_of_mem c hc'))

lemma dropWhile_append_ends {p : Char → Bool} {ext : Str} (hne : ext ≠ [])
    (hh : p (ext.headD 'x') = false) :
    ∀ t : Str, ∃ u, List.dropWhile p (t ++ ext) = u ++ ext := by
  intro t
  induction t with
  | nil =>
    refine ⟨[], ?_⟩
    cases ext with
    | nil => exact absurd rfl hne
    | cons c r =>
      simp only [List.headD_cons] at hh
      simp [List.dropWhile_cons, hh]
  | cons a t' ih =>
    rcases ih with ⟨u, hu⟩
    by_cases hpa : p a = true
    · refine ⟨u, ?_⟩
      simp [List.dropWhile_cons, hpa, hu]
    · refine ⟨a :: t', ?_⟩
      simp only [Bool.not_eq_true] at hpa
      simp [List.dropWhile_cons, hpa]

lemma trimStr_ends {ext : Str} (hne : ext ≠ [])
    (hh : Char.isWhitespace (ext.headD 'x') = false)
    (hl : Char.isWhitespace (ext.reverse.headD 'x') = false) :
    ∀ t : Str, ∃ u, Data.trimStr (t ++ ext) = u ++ ext := by
  intro t
  unfold Data.trimStr
  rcases dropWhile_append_ends hne hh t with ⟨u1, hu1⟩
  rw [hu1, List.reverse_append]
  have hner : ext.reverse ≠ [] := by
    intro h
    exact hne (by simpa using congrArg List.reverse h)
  cases hrev : ext.reverse with
  | nil => exact absurd hrev hner
  | cons c r =>
    rw [hrev] at hl
    simp only [List.headD_cons] at hl
    rw [List.cons_append, List.dropWhile_cons, hl]
    refine ⟨u1, ?_⟩
    simp only [Bool.false_eq_true, if_false, List.reverse_append,
      List.reverse_cons, List.reverse_reverse, List.append_assoc,
      List.nil_append, List.append_cancel_left_eq]
    have h2 := congrArg List.reverse hrev
    simp only [List.reverse_reverse, List.reverse_cons] at h2
    exact h2.symm

lemma suffix_of_append_eq {l s₁ t s₂ : Str} (h : l ++ s₁ = t ++ s₂)
    (hle : s₂.length ≤ s₁.length) :
    s₂ = s₁.drop (s₁.length - s₂.length) := by
  have hlen : l.length + s₁.length = t.length + s₂.length := by
    have := congrArg List.length h
    simpa using this
  have h1 : s₂ = (t ++ s₂).drop t.length := (List.drop_left t s₂).symm
  rw [← h] at h1
  have ht : t.length = l.length + (s₁.length - s₂.length) := by omega
  rw [ht, ← List.drop_drop, List.drop_left] at h1
  exact h1

/-- Claim C10: (a) on every platform, a cleaned document name contains no
bidi-control character (each occurrence was replaced); (b) on Windows, a
name ending in a dangerous extension is suffixed with `".download"`, after
which it no longer ends with that extension. -/
theorem c10_filename_sanitization :
    (∀ (p : Platform) (name : Str) (ch : Char),
      ch ∈ Data.bidiControlChars → ch ∉ Data.CleanDocumentName p name) ∧
    (∀ (name ext : Str), ext ∈ Data.kBadExtensions →
      Data.strEndsWith name ext = true →
      Data.strEndsWith (Data.CleanDocumentName .win name) ext = false ∧
      Data.strEndsWith (Data.CleanDocumentName .win name)
        Data.kMaskExtension = true) := by
  constructor
  · intro p name ch hch
    have hmem : ch ∈ Data.documentNameControls p :=
      List.mem_append_left _ hch
    have hu : ch ≠ '_' := by
      have hall : ∀ c ∈ Data.bidiControlChars, c ≠ '_' := by decide
      exact hall ch hch
    have hnotmask : ch ∉ Data.kMaskExtension := by
      have hall : ∀ c ∈ Data.bidiControlChars, c ∉ Data.kMaskExtension := by
        decide
      exact hall ch hch
    have hbase := notMem_foldl_replace (Data.documentNameControls p) name ch
      hmem hu
    unfold Data.CleanDocumentName
    cases p with
    | win =>
      simp only []
      split
      · intro hcontra
        rcases List.mem_append.mp hcontra with h | h
        · exact hbase h
        · exact hnotmask h
      · exact hbase
    | mac => exact hbase
    | linux => exact hbase
  · intro name ext hext hends
    rcases strEndsWith_iff.mp hends with ⟨t, rfl⟩
    have hcases : ext = ".lnk".data ∨ ext = ".scf".data := by
      simpa [Data.kBadExtensions] using hext
    have hne : ext ≠ [] := by
      rcases hcases with rfl | rfl <;> decide
    have hhead : Char.isWhitespace (ext.headD 'x') = false := by
      rcases hcases with rfl | rfl <;> decide
    have hlast : Char.isWhitespace (ext.reverse.headD 'x') = false := by
      rcases hcases with rfl | rfl <;> decide
    have hfix : ∀ c ∈ Data.documentNameControls .win,
        ext.map (fun x => if x = c then '_' else x) = ext := by
      rcases hcases with rfl | rfl <;> decide
    have hlower : ext.map Char.toLower = ext := by
      rcases hcases with rfl | rfl <;> decide
    have hmasklen : ext.length ≤ Data.kMaskExtension.length := by
      rcases hcases with rfl | rfl <;> decide
    have hnotsuffix :
        ext ≠ Data.kMaskExtension.drop
          (Data.kMaskExtension.length - ext.length) := by
      rcases hcases with rfl | rfl <;> decide
    unfold Data.CleanDocumentName
    simp only []
    rw [foldl_replace_append, foldl_replace_fixed _ ext hfix]
    set t' := (Data.documentNameControls .win).foldl
      (fun n c => n.map (fun x => if x = c then '_' else x)) t with ht'
    rcases trimStr_ends hne hhead hlast t' with ⟨u, hu⟩
    have htrig : Data.kBadExtensions.any
        (fun e => Data.strEndsWith (Data.lowerStr (Data.trimStr (t' ++ ext))) e)
          = true := by
      rw [List.any_eq_true]
      refine ⟨ext, hext, ?_⟩
      rw [hu]
      unfold Data.lowerStr
      rw [List.map_append, hlower]
      exact strEndsWith_iff.mpr ⟨_, rfl⟩
    rw [if_pos htrig]
    constructor
    · cases hsw : Data.strEndsWith (t' ++ ext ++ Data.kMaskExtension) ext with
      | false => rfl
      | true =>
        rcases strEndsWith_iff.mp hsw with ⟨t₂, heq⟩
        exact absurd (suffix_of_append_eq heq hmasklen) hnotsuffix
    · exact strEndsWith_iff.mpr ⟨_, rfl⟩

/-- Witness for C10 at concrete inputs: the RTL-override character inside
`"Fil<RTL>gepj.exe"`, and the dangerous name `"evil.lnk"`. -/
theorem c10_filename_sanitization_witness :
    (Char.ofNat 0x202E ∈ Data.bidiControlChars ∧
      Char.ofNat 0x202E ∉ Data.CleanDocumentName .win
        ("Fil".data ++ [Char.ofNat 0x202E] ++ "gepj.exe".data)) ∧
    (".lnk".data ∈ Data.kBadExtensions ∧
      Data.strEndsWith "evil.lnk".data ".lnk".data = true ∧
      Data.strEndsWith
        (Data.CleanDocumentName .win "evil.lnk".data) ".lnk".data = false ∧
      Data.strEndsWith
        (Data.CleanDocumentName .win "evil.lnk".data)
        Data.kMaskExtension = true) :=
  ⟨⟨by decide, c10_filename_sanitization.1 .win _ _ (by decide)⟩,
   ⟨by decide, by decide,
     (c10_filename_sanitization.2 "evil.lnk".data ".lnk".data
       (by decide) (by decide)).1,
     (c10_filename_sanitization.2 "evil.lnk".data ".lnk".data
       (by decide) (by decide)).2⟩⟩

/-! ## Claim C5: slice ordering on arrival -/

/-- Counterexample to C5 as stated: `ParseUserpicsSlice` does not reverse
the wire batch.  For the two-photo wire batch with ids `[1, 2]` the parsed
list carries ids `[1, 2]` (wire order), not the reverse `[2, 1]` the claim
demands. -/
theorem c5_userpics_slice_not_reversed_counterexample :
    (Data.ParseUserpicsSlice (fun _ => [])
        [.photoEmpty 1, .photoEmpty 2]).list.map Data.Photo.id = [1, 2] ∧
    (Data.ParseUserpicsSlice (fun _ => [])
        [.photoEmpty 1, .photoEmpty 2]).list.map Data.Photo.id ≠ [2, 1] :=
  ⟨rfl, by decide⟩

/-- Amended C5: `ParseMessagesSlice` reverses the batch — its list is the
elementwise parse of the reversed wire batch — while `ParseUserpicsSlice`
preserves wire order (its list is the elementwise parse of the batch as
received). -/
theorem c5_slice_order_amended :
    (∀ (p : Platform) (fdt : Int → Str) (mimeGlobs : Str → List Str)
      (data : List Data.MTPMessage) (users : List Data.MTPUser)
      (chats : List Data.MTPChat) (folder : Str),
      (Data.ParseMessagesSlice p fdt mimeGlobs data users chats folder).list
        = data.reverse.map
            (fun m => Data.ParseMessage p fdt mimeGlobs m folder)) ∧
    (∀ (fdt : Int → Str) (data : List Data.MTPPhoto),
      (Data.ParseUserpicsSlice fdt data).list
        = data.map (fun photo =>
            Data.ParsePhoto photo ("PersonalPhotos/".data ++
              (match photo with
               | .photo _ _ date _ => Data.PreparePhotoFileName fdt date
               | .photoEmpty _ => "Photo_Empty.jpg".data)))) := by
  constructor
  · intro p fdt mimeGlobs data users chats folder
    show (data.map fun m => Data.ParseMessage p fdt mimeGlobs m folder).reverse
      = data.reverse.map fun m => Data.ParseMessage p fdt mimeGlobs m folder
    rw [List.map_reverse]
  · intro fdt data
    rfl

/-! ## Claim C7: CDN redirects and empty chunks are hard errors -/

/-- Claim C7: with an active transfer (non-empty in-flight queue), a CDN
redirect response publishes exactly one error and changes nothing else — in
particular no further chunk request is issued (`sentRequests` unchanged)
and the transfer does not complete (`fileProcess`, `doneFiles` unchanged);
an empty-bytes response while the known size is non-zero behaves the same
with its own single error. -/
theorem c7_cdn_redirect_and_empty_bytes_errors
    (st : ApiState) (process : FileProcess) (offset : Int)
    (hfp : st.fileProcess = some process)
    (hreq : process.requests ≠ []) :
    (filePartDone offset .fileCdnRedirect st
      = some { st with errors := st.errors
          ++ ["API_ERROR: Cdn redirect is not supported.".data] }) ∧
    (process.size > 0 →
      filePartDone offset (.file []) st
        = some { st with errors := st.errors
            ++ ["API_ERROR: Empty bytes received in file part.".data] }) := by
  have hempty : process.requests.isEmpty = false := by
    simpa [List.isEmpty_eq_false] using hreq
  have hcdn : "API_ERROR: ".data ++ "Cdn redirect is not supported.".data
      = "API_ERROR: Cdn redirect is not supported.".data := by decide
  have hbytes : "API_ERROR: ".data ++ "Empty bytes received in file part.".data
      = "API_ERROR: Empty bytes received in file part.".data := by decide
  constructor
  · unfold filePartDone
    rw [hfp]
    simp only [hempty, Bool.false_eq_true, if_false, pushError, hcdn, hfp]
  · intro hsize
    unfold filePartDone
    rw [hfp]
    simp only [hempty, Bool.false_eq_true, if_false, List.isEmpty_nil,
      if_true, pushError, hbytes, hsize, if_pos, hfp]

/-- Witness for C7 at a concrete state: one in-flight request, known size
1; both the CDN-redirect and the empty-bytes conclusions hold there. -/
theorem c7_cdn_redirect_and_empty_bytes_errors_witness :
    (({ settings := {}
        fileCache := initCache 5
        fileProcess := some { size := 1, requests := [{ offset := 0 }] } }
          : ApiState).fileProcess
        = some { size := 1, requests := [{ offset := 0 }] } ∧
      ({ size := 1, requests := [{ offset := 0 }] } : FileProcess).requests
        ≠ [] ∧
      ({ size := 1, requests := [{ offset := 0 }] } : FileProcess).size > 0) ∧
    (filePartDone 0 .fileCdnRedirect
        { settings := {}
          fileCache := initCache 5
          fileProcess := some { size := 1, requests := [{ offset := 0 }] } }
      = some { settings := {}
               fileCache := initCache 5
               fileProcess := some { size := 1, requests := [{ offset := 0 }] }
               errors :=
                 ["API_ERROR: Cdn redirect is not supported.".data] }) ∧
    (filePartDone 0 (.file [])
        { settings := {}
          fileCache := initCache 5
          fileProcess := some { size := 1, requests := [{ offset := 0 }] } }
      = some { settings := {}
               fileCache := initCache 5
               fileProcess := some { size := 1, requests := [{ offset := 0 }] }
               errors :=
                 ["API_ERROR: Empty bytes received in file part.".data] }) :=
  ⟨⟨rfl, by decide, by decide⟩,
    (c7_cdn_redirect_and_empty_bytes_errors _ _ 0 rfl (by decide)).1,
    (c7_cdn_redirect_and_empty_bytes_errors _ _ 0 rfl (by decide)).2
      (by decide)⟩

/-! ## Claim C9: file resolution outcome in `processFileLoad` -/

/-- Counterexample to C9 as stated: a file whose size equals the configured
limit (so its size does not *exceed* the limit), with a valid location, an
enabled type (all type bits set), an empty cache and no inline content, is
nevertheless skipped with reason `FileSize` — the code tests
`file.size >= sizeLimit`, not `>`. -/
theorem c9_size_boundary_counterexample :
    ({ size := 100, suggestedPath := "s".data
       location := { dcId := 1, data := .inputDocumentFileLocation 10 0 0 } }
        : Data.File).size
      ≤ ({ media := { types := 0x7F, sizeLimit := 100 } }
          : Settings).media.sizeLimit ∧
    (processFileLoad (fun _ s => s)
        { size := 100, suggestedPath := "s".data
          location := { dcId := 1, data := .inputDocumentFileLocation 10 0 0 } }
        none
        { settings := { media := { types := 0x7F, sizeLimit := 100 } }
          fileCache := initCache 5 }).map
        (fun r => (r.2.1.skipReason, r.2.2))
      = some (some .FileSize, true) :=
  ⟨by decide, rfl⟩

lemma loadFilePart_fileProcess_isSome (st : ApiState) :
    (loadFilePart st).fileProcess.isSome = st.fileProcess.isSome := by
  unfold loadFilePart
  split
  · rfl
  · next process heq =>
    split
    · rfl
    · rw [heq]
      rfl

/-- Amended C9: for a file handed to `processFileLoad` with an empty
`relativePath`, no cache entry and no inline content, the outcome is:
skip reason `Unavailable` when the location is invalid (`dcId = 0`);
otherwise `FileType` when the media type is not enabled in the settings
bitmask; otherwise `FileSize` when the size is *at least* (`>=`, not `>`)
the configured limit; otherwise no skip — the chunked download starts and
the call reports the file as not yet ready. -/
theorem c9_file_resolution_amended
    (prep : Str → Str → Str) (st : ApiState) (file : Data.File)
    (message : Option Data.Message)
    (hpath : file.relativePath = [])
    (hmiss : st.fileCache.find file.location = none)
    (hcontent : file.content = []) :
    (file.location.dcId = 0 →
      processFileLoad prep file message st
        = some (st, { file with skipReason := some .Unavailable }, true)) ∧
    (file.location.dcId ≠ 0 →
      st.settings.media.types &&& fileTypeOf message ≠ fileTypeOf message →
      processFileLoad prep file message st
        = some (st, { file with skipReason := some .FileType }, true)) ∧
    (file.location.dcId ≠ 0 →
      st.settings.media.types &&& fileTypeOf message = fileTypeOf message →
      file.size ≥ st.settings.media.sizeLimit →
      processFileLoad prep file message st
        = some (st, { file with skipReason := some .FileSize }, true)) ∧
    (file.location.dcId ≠ 0 →
      st.settings.media.types &&& fileTypeOf message = fileTypeOf message →
      file.size < st.settings.media.sizeLimit →
      st.fileProcess = none →
      ∃ st', processFileLoad prep file message st = some (st', file, false)
        ∧ st'.fileProcess ≠ none) := by
  have hempty : file.relativePath.isEmpty = true := by
    rw [hpath]; rfl
  have hwrite : writePreloadedFile prep file st = some (st, file, false) := by
    unfold writePreloadedFile
    rw [hmiss]
    simp only [hcontent, List.isEmpty_nil, if_true]
  refine ⟨?_, ?_, ?_, ?_⟩
  · intro hdc
    unfold processFileLoad
    rw [if_neg (by simp [hempty]), if_pos hdc]
  · intro hdc htype
    unfold processFileLoad
    rw [if_neg (by simp [hempty]), if_neg hdc, hwrite]
    show (if st.settings.media.types &&& fileTypeOf message
        ≠ fileTypeOf message then _ else _) = _
    rw [if_pos htype]
  · intro hdc htype hsize
    unfold processFileLoad
    rw [if_neg (by simp [hempty]), if_neg hdc, hwrite]
    show (if st.settings.media.types &&& fileTypeOf message
        ≠ fileTypeOf message then _ else _) = _
    rw [if_neg (by simpa using htype), if_pos hsize]
  · intro hdc htype hsize hnone
    unfold processFileLoad
    rw [if_neg (by simp [hempty]), if_neg hdc, hwrite]
    refine ⟨loadFilePart
      { st with fileProcess := some (prepareFileProcess prep st.settings file) },
      ?_, ?_⟩
    · show (if st.settings.media.types &&& fileTypeOf message
          ≠ fileTypeOf message then _ else _) = _
      rw [if_neg (by simpa using htype), if_neg (by omega)]
      unfold loadFile
      rw [if_neg (by simp [hnone, hdc])]
      rfl
    · rw [Option.ne_none_iff_isSome, loadFilePart_fileProcess_isSome]
      rfl

/-- Witness for the amended C9 at a concrete input: the `FileSize` branch
at the `size = sizeLimit` boundary. -/
theorem c9_file_resolution_amended_witness :
    (({ size := 100, suggestedPath := "s".data
        location := { dcId := 1, data := .inputDocumentFileLocation 10 0 0 } }
          : Data.File).relativePath = [] ∧
      ({ settings := { media := { types := 0x7F, sizeLimit := 100 } }
         fileCache := initCache 5 } : ApiState).fileCache.find
          ({ size := 100, suggestedPath := "s".data
             location := { dcId := 1
                           data := .inputDocumentFileLocation 10 0 0 } }
            : Data.File).location = none) ∧
    processFileLoad (fun _ s => s)
        { size := 100, suggestedPath := "s".data
          location := { dcId := 1, data := .inputDocumentFileLocation 10 0 0 } }
        none
        { settings := { media := { types := 0x7F, sizeLimit := 100 } }
          fileCache := initCache 5 }
      = some ({ settings := { media := { types := 0x7F, sizeLimit := 100 } }
                fileCache := initCache 5 },
              { size := 100, suggestedPath := "s".data
                location := { dcId := 1
                              data := .inputDocumentFileLocation 10 0 0 }
                skipReason := some .FileSize },
              true) :=
  ⟨⟨rfl, rfl⟩,
    (c9_file_resolution_amended (fun _ s => s)
        { settings := { media := { types := 0x7F, sizeLimit := 100 } }
          fileCache := initCache 5 }
        { size := 100, suggestedPath := "s".data
          location := { dcId := 1, data := .inputDocumentFileLocation 10 0 0 } }
        none rfl rfl rfl).2.2.1
      (by decide) (by decide) (by decide)⟩

/-! ## Claim C8: concurrency bounds as reachable-state invariants -/

lemma setRequestBytes_length :
    ∀ (rs : List Request) (off : Int) (b : Str) (rs' : List Request),
      setRequestBytes rs off b = some rs' → rs'.length = rs.length := by
  intro rs
  induction rs with
  | nil => intro off b rs' h; cases h
  | cons r rest ih =>
    intro off b rs' h
    unfold setRequestBytes at h
    split at h
    · cases h
      simp
    · rcases Option.map_eq_some'.mp h with ⟨rs₁, h₁, rfl⟩
      simp [ih off b rs₁ h₁]

lemma drainRequests_length_le :
    ∀ (rs : List Request) (f : OutFile),
      (drainRequests rs f).1.length ≤ rs.length := by
  intro rs
  induction rs with
  | nil => intro f; simp [drainRequests]
  | cons r rest ih =>
    intro f
    unfold drainRequests
    split
    · simp
    · exact le_trans (ih _) (by simp)

lemma loadFilePart_userpics (st : ApiState) :
    (loadFilePart st).userpicsProcess = st.userpicsProcess := by
  unfold loadFilePart
  split
  · rfl
  · split <;> rfl

lemma loadFilePart_dialogs (st : ApiState) :
    (loadFilePart st).dialogsProcess = st.dialogsProcess := by
  unfold loadFilePart
  split
  · rfl
  · split <;> rfl

lemma loadFilePart_requests_le (st : ApiState) (p : FileProcess)
    (hall : ∀ q, st.fileProcess = some q →
      q.requests.length ≤ kFileRequestsCount)
    (hp : (loadFilePart st).fileProcess = some p) :
    p.requests.length ≤ kFileRequestsCount := by
  unfold loadFilePart at hp
  split at hp
  · next hnone => exact hall p hp
  · next q hq =>
    split at hp
    · next hguard => exact hall p hp
    · next hguard =>
      cases hp
      simp only [List.length_append, List.length_cons, List.length_nil]
      push_neg at hguard
      omega

lemma paginatedCount_loadFilePart (st : ApiState) :
    paginatedCount (loadFilePart st) = paginatedCount st := by
  unfold paginatedCount
  rw [loadFilePart_userpics, loadFilePart_dialogs]

lemma filePartDone_inv {st st' : ApiState} {off : Int} {res : MTPuploadFile}
    (h1 : ∀ p, st.fileProcess = some p →
      p.requests.length ≤ kFileRequestsCount)
    (h2 : paginatedCount st ≤ 1)
    (heq : filePartDone off res st = some st') :
    (∀ p, st'.fileProcess = some p →
      p.requests.length ≤ kFileRequestsCount) ∧ paginatedCount st' ≤ 1 := by
  unfold filePartDone at heq
  split at heq
  · cases heq
  · next process hfp =>
    split at heq
    · cases heq
    · split at heq
      · cases heq
        exact ⟨fun p hp => h1 p hp, h2⟩
      · next bytes =>
        split at heq
        · split at heq
          · cases heq
            exact ⟨fun p hp => h1 p hp, h2⟩
          · cases heq
            refine ⟨fun p hp => ?_, h2⟩
            simp [completeFileProcess] at hp
        · split at heq
          · cases heq
          · next filled hset =>
            simp only [] at heq
            split at heq
            · cases heq
              constructor
              · intro p hp
                apply loadFilePart_requests_le _ p _ hp
                intro q hq
                simp only [Option.some.injEq] at hq
                subst hq
                calc (drainRequests filled process.file).1.length
                    ≤ filled.length := drainRequests_length_le filled _
                  _ = process.requests.length :=
                      setRequestBytes_length process.requests off bytes
                        filled hset
                  _ ≤ kFileRequestsCount := h1 process hfp
              · rw [paginatedCount_loadFilePart]
                exact h2
            · cases heq
              refine ⟨fun p hp => ?_, h2⟩
              simp [completeFileProcess] at hp

lemma loadFile_inv {prep : Str → Str → Str} {st st' : ApiState}
    {file : Data.File}
    (_h1 : ∀ p, st.fileProcess = some p →
      p.requests.length ≤ kFileRequestsCount)
    (h2 : paginatedCount st ≤ 1)
    (heq : loadFile prep file st = some st') :
    (∀ p, st'.fileProcess = some p →
      p.requests.length ≤ kFileRequestsCount) ∧ paginatedCount st' ≤ 1 := by
  unfold loadFile at heq
  split at heq
  · cases heq
  · cases heq
    constructor
    · intro p hp
      apply loadFilePart_requests_le _ p _ hp
      intro q hq
      simp only [Option.some.injEq] at hq
      subst hq
      simp [prepareFileProcess, kFileRequestsCount]
    · rw [paginatedCount_loadFilePart]
      exact h2

lemma writePreloadedFile_inv {prep : Str → Str → Str} {st st₁ : ApiState}
    {file f₁ : Data.File} {b : Bool}
    (h1 : ∀ p, st.fileProcess = some p →
      p.requests.length ≤ kFileRequestsCount)
    (h2 : paginatedCount st ≤ 1)
    (heq : writePreloadedFile prep file st = some (st₁, f₁, b)) :
    (∀ p, st₁.fileProcess = some p →
      p.requests.length ≤ kFileRequestsCount) ∧ paginatedCount st₁ ≤ 1 := by
  unfold writePreloadedFile at heq
  split at heq
  · cases heq
    exact ⟨fun p hp => h1 p hp, h2⟩
  · split at heq
    · cases heq
      exact ⟨fun p hp => h1 p hp, h2⟩
    · split at heq
      · cases heq
      · next target htarget =>
        simp only [Option.some.injEq, Prod.mk.injEq] at heq
        obtain ⟨hst, _hf, _hb⟩ := heq
        subst hst
        constructor
        · intro p hp
          simp only [Option.some.injEq] at hp
          subst hp
          exact h1 target htarget
        · exact h2

lemma processFileLoad_inv {prep : Str → Str → Str} {st st' : ApiState}
    {file f' : Data.File} {message : Option Data.Message} {ready : Bool}
    (h1 : ∀ p, st.fileProcess = some p →
      p.requests.length ≤ kFileRequestsCount)
    (h2 : paginatedCount st ≤ 1)
    (heq : processFileLoad prep file message st = some (st', f', ready)) :
    (∀ p, st'.fileProcess = some p →
      p.requests.length ≤ kFileRequestsCount) ∧ paginatedCount st' ≤ 1 := by
  unfold processFileLoad at heq
  split at heq
  · cases heq
    exact ⟨fun p hp => h1 p hp, h2⟩
  · split at heq
    · cases heq
      exact ⟨fun p hp => h1 p hp, h2⟩
    · split at heq
      · cases heq
      · next st₁ f₁ hwrite =>
        obtain ⟨g1, g2⟩ := writePreloadedFile_inv h1 h2 hwrite
        cases heq
        exact ⟨g1, g2⟩
      · next st₁ f₁ hwrite =>
        obtain ⟨g1, g2⟩ := writePreloadedFile_inv h1 h2 hwrite
        simp only [] at heq
        split at heq
        · cases heq
          exact ⟨g1, g2⟩
        · split at heq
          · cases heq
            exact ⟨g1, g2⟩
          · rcases Option.map_eq_some'.mp heq with ⟨st₂, hload, hpair⟩
            simp only [Prod.mk.injEq] at hpair
            obtain ⟨hst, _, _⟩ := hpair
            subst hst
            exact loadFile_inv g1 g2 hload

/-- Claim C8: in every reachable orchestrator state, the active file
transfer has at most `kFileRequestsCount = 2` in-flight chunk requests and
at most one paginated process (userpics or dialogs) is active; moreover at
most one file transfer exists at a time — `fileProcess` is a single slot,
and calling `loadFile` while it is occupied is a precondition violation
(the aborted run `none`). -/
theorem c8_concurrency_bounds (prep : Str → Str → Str)
    (settings : Settings) :
    (∀ st : ApiState, Reachable prep settings st →
      (∀ p, st.fileProcess = some p →
        p.requests.length ≤ kFileRequestsCount)
        ∧ paginatedCount st ≤ 1) ∧
    (∀ (st : ApiState) (file : Data.File),
      st.fileProcess ≠ none → loadFile prep file st = none) := by
  constructor
  · intro st hr
    induction hr with
    | init =>
      constructor
      · intro p hp
        simp [initialState] at hp
      · simp [paginatedCount, initialState]
    | startUserpics hr hdia heq ih =>
      unfold requestUserpics at heq
      split at heq
      · cases heq
      · cases heq
        refine ⟨fun p hp => ih.1 p hp, ?_⟩
        unfold paginatedCount
        simp [hdia]
    | userpicsDone hr heq ih =>
      unfold finishUserpics at heq
      split at heq
      · cases heq
      · cases heq
        refine ⟨fun p hp => ih.1 p hp, ?_⟩
        unfold paginatedCount
        simp only [Option.isSome_none, Bool.false_eq_true, if_false,
          Nat.zero_add]
        split <;> omega
    | startDialogs hr hups heq ih =>
      unfold requestDialogs at heq
      split at heq
      · cases heq
      · cases heq
        refine ⟨fun p hp => ih.1 p hp, ?_⟩
        unfold paginatedCount
        simp [hups]
    | dialogsDone hr heq ih =>
      unfold finishDialogs at heq
      split at heq
      · cases heq
      · split at heq
        · cases heq
        · cases heq
          refine ⟨fun p hp => ih.1 p hp, ?_⟩
          unfold paginatedCount
          simp only [Option.isSome_none, Bool.false_eq_true, if_false]
          split <;> omega
    | fileLoad hr heq ih => exact loadFile_inv ih.1 ih.2 heq
    | filePart hr ih =>
      refine ⟨fun p hp => loadFilePart_requests_le _ p ih.1 hp, ?_⟩
      rw [paginatedCount_loadFilePart]
      exact ih.2
    | partDone hr heq ih => exact filePartDone_inv ih.1 ih.2 heq
    | fileProcessLoad hr heq ih => exact processFileLoad_inv ih.1 ih.2 heq
  · intro st file h
    unfold loadFile
    rw [if_pos]
    left
    rw [Option.isSome_iff_ne_none]
    exact h

/-- Witness for C8: the invariant instantiated at the initial state (via
the `init` step of `Reachable`), and the precondition violation of
`loadFile` at a concrete state that already has an active transfer. -/
theorem c8_concurrency_bounds_witness :
    ((∀ p, (initialState ({} : Settings)).fileProcess = some p →
        p.requests.length ≤ kFileRequestsCount)
      ∧ paginatedCount (initialState ({} : Settings)) ≤ 1) ∧
    loadFile (fun _ s => s) {}
        { settings := {}
          fileCache := initCache 5
          fileProcess := some {} } = none :=
  ⟨(c8_concurrency_bounds (fun _ s => s) {}).1 _ Reachable.init,
    (c8_concurrency_bounds (fun _ s => s) {}).2
      { settings := {}
        fileCache := initCache 5
        fileProcess := some {} } {} (by simp)⟩

/-! ## Claim C1: out-of-order chunk reassembly -/

lemma perm_two {α : Type} {l : List α} {a b : α} (h : l.Perm [a, b]) :
    l = [a, b] ∨ l = [b, a] := by
  have hlen := h.length_eq
  rcases l with _ | ⟨x, _ | ⟨y, _ | ⟨z, rest⟩⟩⟩ <;> simp at hlen
  have hx : x ∈ [a, b] := h.mem_iff.mp (by simp)
  have hx' : x = a ∨ x = b := by simpa using hx
  rcases hx' with rfl | rfl
  · left
    have h2 := h.cons_inv
    rw [List.perm_singleton.mp h2]
  · right
    have h2 : (x :: [y]).Perm (x :: [a]) := h.trans (List.Perm.swap x a [])
    rw [List.perm_singleton.mp h2.cons_inv]

lemma perm_three {α : Type} {l : List α} {a b c : α}
    (h : l.Perm [a, b, c]) :
    l = [a, b, c] ∨ l = [a, c, b] ∨ l = [b, a, c] ∨ l = [b, c, a]
      ∨ l = [c, a, b] ∨ l = [c, b, a] := by
  have hlen := h.length_eq
  rcases l with _ | ⟨x, _ | ⟨y, _ | ⟨z, _ | ⟨w, rest⟩⟩⟩⟩ <;> simp at hlen
  have hx : x ∈ [a, b, c] := h.mem_iff.mp (by simp)
  have hx' : x = a ∨ x = b ∨ x = c := by simpa using hx
  rcases hx' with rfl | rfl | rfl
  · rcases perm_two h.cons_inv with h2 | h2 <;> rw [h2] <;> simp
  · have h' : (x :: [y, z]).Perm (x :: [a, c]) :=
      h.trans (List.Perm.swap x a [c])
    rcases perm_two h'.cons_inv with h2 | h2 <;> rw [h2] <;> simp
  · have h' : (x :: [y, z]).Perm (x :: [a, b]) :=
      h.trans (@List.perm_append_comm _ [a, b] [x])
    rcases perm_two h'.cons_inv with h2 | h2 <;> rw [h2] <;> simp

/-- Claim C1: out-of-order reassembly.  With the transfer in the state
where all three chunks at offsets `0`, `kFileChunkSize` and
`2 * kFileChunkSize` of a file of size `3 * kFileChunkSize` are in flight
(three placeholders queued, in offset order, as `loadFilePart` created
them), delivering the three (non-empty) chunk responses to `filePartDone`
in ANY permutation yields one and the same final state: the transfer
completes with the blocks written in offset order `[b0, b1, b2]` — in
particular the output is byte-identical to in-order delivery, and a chunk
arriving before its predecessor stays buffered in its queue slot instead
of being written early. -/
theorem c1_out_of_order_reassembly (st : ApiState) (process : FileProcess)
    (b0 b1 b2 : Str) (h0 : b0 ≠ []) (h1 : b1 ≠ []) (h2 : b2 ≠ [])
    (hfp : st.fileProcess = some process)
    (hreq : process.requests
      = [{ offset := 0 }, { offset := kFileChunkSize },
         { offset := 2 * kFileChunkSize }])
    (hoff : process.offset = 3 * kFileChunkSize)
    (hsize : process.size = 3 * kFileChunkSize)
    (parts : List (Int × MTPuploadFile))
    (hperm : parts.Perm
      [(0, .file b0), (kFileChunkSize, .file b1),
       (2 * kFileChunkSize, .file b2)]) :
    deliverParts parts st
      = some { st with
          fileProcess := none
          fileCache := st.fileCache.save process.location process.relativePath
          doneFiles := st.doneFiles
            ++ [(process.relativePath, process.file ++ [b0, b1, b2])] } := by
  have eb0 : b0.isEmpty = false := by simpa [List.isEmpty_eq_false] using h0
  have eb1 : b1.isEmpty = false := by simpa [List.isEmpty_eq_false] using h1
  have eb2 : b2.isEmpty = false := by simpa [List.isEmpty_eq_false] using h2
  rcases perm_three hperm with hl | hl | hl | hl | hl | hl <;>
    subst hl <;>
    simp [deliverParts, filePartDone, setRequestBytes, drainRequests,
      loadFilePart, completeFileProcess, pushError, hfp, hreq, hoff, hsize,
      eb0, eb1, eb2, h0, h1, h2, kFileChunkSize, kFileRequestsCount]

/-- Witness for C1 at a concrete input: chunks "A", "B", "C" delivered in
the order `2 * chunkSize`, `0`, `chunkSize`. -/
theorem c1_out_of_order_reassembly_witness :
    ("A".data ≠ [] ∧ "B".data ≠ [] ∧ "C".data ≠ [] ∧
      List.Perm
        [((2 * kFileChunkSize : Int), MTPuploadFile.file "C".data),
         (0, .file "A".data), (kFileChunkSize, .file "B".data)]
        [(0, .file "A".data), (kFileChunkSize, .file "B".data),
         (2 * kFileChunkSize, .file "C".data)]) ∧
    deliverParts
        [((2 * kFileChunkSize : Int), MTPuploadFile.file "C".data),
         (0, .file "A".data), (kFileChunkSize, .file "B".data)]
        { settings := {}
          fileCache := initCache 5
          fileProcess := some
            { relativePath := "p".data
              location := { dcId := 1
                            data := .inputDocumentFileLocation 10 0 0 }
              offset := 3 * kFileChunkSize
              size := 3 * kFileChunkSize
              requests := [{ offset := 0 }, { offset := kFileChunkSize },
                           { offset := 2 * kFileChunkSize }] } }
      = some { ({ settings := {}
                  fileCache := initCache 5
                  fileProcess := some
                    { relativePath := "p".data
                      location := { dcId := 1
                                    data := .inputDocumentFileLocation 10 0 0 }
                      offset := 3 * kFileChunkSize
                      size := 3 * kFileChunkSize
                      requests := [{ offset := 0 },
                                   { offset := kFileChunkSize },
                                   { offset := 2 * kFileChunkSize }] } }
                  : ApiState) with
          fileProcess := none
          fileCache := (initCache 5).save
            { dcId := 1, data := .inputDocumentFileLocation 10 0 0 } "p".data
          doneFiles := [("p".data,
            ([] : OutFile) ++ ["A".data, "B".data, "C".data])] } :=
  ⟨⟨by decide, by decide, by decide, by decide⟩,
    c1_out_of_order_reassembly _ _ "A".data "B".data "C".data
      (by decide) (by decide) (by decide) rfl rfl rfl rfl _ (by decide)⟩
